import Mathlib

/-! lighttpd2 `request.c`: request lifecycle and header validation

A shallow embedding of `src/main/request.c`.  C strings (`GString`, `gchar*`) are
lists of characters (a `GString` has a length and may hold a NUL; functions that take a
`char*` read it up to the first NUL), `gint64` values are integers together with the explicit
saturation bounds of the parser, the connection is an explicit record that is
passed through the validation function, and the C `errno` is threaded
alongside it.
-/

namespace Lighttpd

/-! ## Data model -/

/-- The `liHttpVersion` enumeration, as switched over in `li_request_validate_header`. -/
inductive liHttpVersion where
  | UNSET
  | V1_0
  | V1_1
  deriving DecidableEq, Repr

/-- Modelled from the spec: the `liHttpMethod` enumeration is declared in a header that is
not part of `request.c`; it is "an enum over known HTTP methods plus `Unset`".  The
constructors `UNSET`, `GET`, `HEAD`, `POST` and `OPTIONS` are the ones `request.c` names. -/
inductive liHttpMethod where
  | UNSET
  | GET
  | POST
  | HEAD
  | OPTIONS
  | PROPFIND
  | MKCOL
  | PUT
  | DELETE
  | COPY
  | MOVE
  | PROPPATCH
  | REPORT
  | CHECKOUT
  | CHECKIN
  | VERSION_CONTROL
  | UNCHECKOUT
  | MKACTIVITY
  | MERGE
  | LOCK
  | UNLOCK
  | LABEL
  | CONNECT
  deriving DecidableEq, Repr

/-- The text of a `GString` / NUL-terminated C string. -/
abbrev GString := List Char

/-- The `liRequestUri` record: the seven strings of `req->uri`. -/
structure liRequestUri where
  raw : GString
  scheme : GString
  authority : GString
  path : GString
  orig_path : GString
  query : GString
  host : GString
  deriving DecidableEq, Repr

/-- One entry of the header multimap: header name and header value (`HEADER_VALUE`). -/
structure liHttpHeader where
  key : GString
  value : GString
  deriving DecidableEq, Repr

/-- The header multimap `liHttpHeaders`: the entries in receipt order. -/
abbrev liHttpHeaders := List liHttpHeader

/-- The `liRequest` record. -/
structure liRequest where
  http_method : liHttpMethod
  http_method_str : GString
  http_version : liHttpVersion
  uri : liRequestUri
  headers : liHttpHeaders
  content_length : Int
  deriving DecidableEq, Repr

/-- The part of `liVRequest` that `request.c` touches: the request, the response status
and the number of times the request was handed to `li_vrequest_handle_direct`. -/
structure liVRequest where
  request : liRequest
  response_http_status : Int
  handle_direct_calls : Nat
  deriving DecidableEq, Repr

/-- The part of `liConnection` that `request.c` touches. -/
structure liConnection where
  keep_alive : Bool
  expect_100_cont : Bool
  mainvr : liVRequest
  deriving DecidableEq, Repr

/-- The external parsers `request.c` calls: the raw-URI grammar parser, the hostname
parser (both return a success flag and the URI they leave behind), the percent-decoder
and the path simplifier.  They act on the URI only and leave `errno` alone. -/
structure Externals where
  li_parse_raw_url : liRequestUri → Bool × liRequestUri
  li_parse_hostname : liRequestUri → Bool × liRequestUri
  li_url_decode : GString → GString
  li_path_simplify : GString → GString

/-! ## C library functions -/

/-- ASCII `tolower` applied to upper-case letters only, as in `g_strcasecmp`. -/
def ascii_tolower (c : Char) : Char :=
  if 'A'.toNat ≤ c.toNat ∧ c.toNat ≤ 'Z'.toNat then Char.ofNat (c.toNat + 32) else c

/-- GLib `g_strcasecmp`: walk both strings while neither has ended, return the difference
of the first pair of characters that differ after lower-casing, or the difference of the
characters at which the walk stopped (`0` for the terminating NUL). -/
def g_strcasecmp : GString → GString → Int
  | c1 :: s1, c2 :: s2 =>
    if ascii_tolower c1 ≠ ascii_tolower c2 then
      (ascii_tolower c1).toNat - (ascii_tolower c2).toNat
    else g_strcasecmp s1 s2
  | [], c2 :: _ => 0 - (c2.toNat : Int)
  | c1 :: _, [] => (c1.toNat : Int) - 0
  | [], [] => 0

/-- The largest `gint64`, 2^63 - 1. -/
def G_MAXINT64 : Int := 9223372036854775807

/-- The smallest `gint64`, -2^63. -/
def G_MININT64 : Int := -9223372036854775808

/-- The largest `guint64`, 2^64 - 1. -/
def G_MAXUINT64 : Nat := 18446744073709551615

/-- The `errno` value `ERANGE`. -/
def ERANGE : Int := 34

/-- The NUL character that ends a C string. -/
def NUL : Char := Char.ofNat 0

/-- The character a `char*` into a text reads (`*p`): the character it points at, or the
terminating NUL when it points at the end of the text. -/
def deref (s : GString) : Char := s.headD NUL

/-- The text as the C string functions read it: up to, and without, the first NUL. -/
def c_str : GString → GString
  | [] => []
  | c :: s => if c = NUL then [] else c :: c_str s

/-- The `ISSPACE` test of GLib's integer parser. -/
def ISSPACE (c : Char) : Bool :=
  c = ' ' || c = '\x0c' || c = '\n' || c = '\r' || c = '\t' || c = '\x0b'

/-- Skip leading white space. -/
def skip_space : GString → GString
  | [] => []
  | c :: s => if ISSPACE c then skip_space s else c :: s

/-- State of the digit loop of `g_parse_long_long`: the accumulated value, the overflow
flag and the unread rest of the string. -/
structure ParseLoop where
  ui64 : Nat
  overflow : Bool
  rest : GString
  deriving DecidableEq, Repr

/-- The digit loop of `g_parse_long_long` for base 10: stop at the first character that is
not a decimal digit; on overflow of the unsigned 64-bit accumulator set the flag and
leave the accumulator alone. -/
def parse_digits : GString → Nat → Bool → ParseLoop
  | [], ui64, overflow => ⟨ui64, overflow, []⟩
  | c :: s, ui64, overflow =>
    if '0'.toNat ≤ c.toNat ∧ c.toNat ≤ '9'.toNat then
      let d := c.toNat - '0'.toNat
      if ui64 > G_MAXUINT64 / 10 ∨ (ui64 = G_MAXUINT64 / 10 ∧ d > G_MAXUINT64 % 10) then
        parse_digits s ui64 true
      else
        parse_digits s (ui64 * 10 + d) overflow
    else ⟨ui64, overflow, c :: s⟩

/-- Result of `g_ascii_strtoll`: the value, the text `endptr` points into (what the header
value holds from there on, so that `*endptr` is `deref err`), and `errno`. -/
structure StrtollResult where
  r : Int
  err : GString
  errno : Int
  deriving DecidableEq, Repr

/-- GLib `g_ascii_strtoll (nptr, &err, 10)`: skip white space, read an optional sign and
the decimal digits.  Without any digit nothing is converted: the value is `0` and `err`
is the whole input.  A magnitude beyond the signed 64-bit range saturates and sets
`errno` to `ERANGE`; otherwise `errno` keeps the value it had before the call.  A NUL in
the text is neither white space nor sign nor digit, so the conversion ends there as it
does at the end of the C string. -/
def g_ascii_strtoll (nptr : GString) (errno : Int) : StrtollResult :=
  let s := skip_space nptr
  match s with
  | [] => ⟨0, nptr, errno⟩
  | c :: s1 =>
    let negative := decide (c = '-')
    let s2 := if c = '-' ∨ c = '+' then s1 else c :: s1
    let p := parse_digits s2 0 false
    if p.rest = s2 then ⟨0, nptr, errno⟩
    else
      let result := if p.overflow then G_MAXUINT64 else p.ui64
      let errno1 := if p.overflow then ERANGE else errno
      if negative ∧ (result : Int) > -G_MININT64 then ⟨G_MININT64, p.rest, ERANGE⟩
      else if ¬ negative ∧ (result : Int) > G_MAXINT64 then ⟨G_MAXINT64, p.rest, ERANGE⟩
      else if negative then ⟨-(result : Int), p.rest, errno1⟩
      else ⟨(result : Int), p.rest, errno1⟩

/-! ## Header multimap -/

/-- Modelled from the spec: the header multimap functions live in `http_headers.c`, which
is not part of `request.c`; header names are compared case-insensitively. -/
def li_http_header_key_is (h : liHttpHeader) (key : GString) : Bool :=
  h.key.map ascii_tolower = key.map ascii_tolower

/-- Modelled from the spec: "find first occurrence" of the header multimap
(`http_headers.c` is not part of `request.c`).  The returned `GList*` is the list from
the found entry on; `[]` is `NULL`. -/
def li_http_header_find_first : liHttpHeaders → GString → liHttpHeaders
  | [], _ => []
  | h :: t, key => if li_http_header_key_is h key then h :: t else li_http_header_find_first t key

/-- Modelled from the spec: "find next occurrence of same name" of the header multimap,
searching behind the entry `l` points at. -/
def li_http_header_find_next (l : liHttpHeaders) (key : GString) : liHttpHeaders :=
  li_http_header_find_first l.tail key

/-- Modelled from the spec: lookup of a single header by name; "only the first/only
occurrence is consulted". -/
def li_http_header_lookup (headers : liHttpHeaders) (key : GString) : Option liHttpHeader :=
  (li_http_header_find_first headers key).head?

/-- Modelled from the spec: "a `Connection: keep-alive` header is present": some
occurrence of the header `key` has a value equal to `val`, ignoring case. -/
def li_http_header_is : liHttpHeaders → GString → GString → Bool
  | [], _, _ => false
  | h :: t, key, val =>
    (li_http_header_key_is h key && decide (g_strcasecmp h.value val = 0))
      || li_http_header_is t key val

/-! ## `request.c` -/

/-- The request `li_request_init` produces: every string freshly allocated and empty, an
empty header multimap, method and version unset and content length `-1`. -/
def li_request_init : liRequest :=
  { http_method := .UNSET
    http_method_str := []
    http_version := .UNSET
    uri := { raw := [], scheme := [], authority := [], path := [], orig_path := [],
             query := [], host := [] }
    headers := []
    content_length := -1 }

/-- The function `li_request_reset`: truncate every string to length 0, reset the header
multimap, unset method and version and put content length back to `-1`. -/
def li_request_reset (req : liRequest) : liRequest :=
  { http_method := .UNSET
    http_method_str := req.http_method_str.take 0
    http_version := .UNSET
    uri := { raw := req.uri.raw.take 0
             scheme := req.uri.scheme.take 0
             authority := req.uri.authority.take 0
             path := req.uri.path.take 0
             orig_path := req.uri.orig_path.take 0
             query := req.uri.query.take 0
             host := req.uri.host.take 0 }
    headers := []
    content_length := -1 }

/-- Modelled from the spec: the dispatcher hook `li_vrequest_handle_direct` is outside
`request.c`; the request is handed to the response dispatcher, which is recorded by
counting the invocation. -/
def li_vrequest_handle_direct (vr : liVRequest) : liVRequest :=
  { vr with handle_direct_calls := vr.handle_direct_calls + 1 }

/-- The function `bad_request`: closes the connection after the response. -/
def bad_request (con : liConnection) (status : Int) : liConnection :=
  let con := { con with keep_alive := false }
  let con := { con with mainvr := { con.mainvr with response_http_status := status } }
  { con with mainvr := li_vrequest_handle_direct con.mainvr }

/-- The function `request_parse_url`, returning its `gboolean` and the virtual request it
leaves behind. -/
def request_parse_url (ext : Externals) (vr0 : liVRequest) : Bool × liVRequest := Id.run do
  let mut vr := vr0
  vr := { vr with request := { vr.request with uri := { vr.request.uri with query := [] } } }
  vr := { vr with request := { vr.request with uri := { vr.request.uri with path := [] } } }
  let parsed := ext.li_parse_raw_url vr.request.uri
  vr := { vr with request := { vr.request with uri := parsed.2 } }
  if !parsed.1 then
    return (false, vr)
  -- "*" only allowed for method OPTIONS; strcmp reads the path up to its first NUL
  if c_str vr.request.uri.path = ['*'] ∧ vr.request.http_method ≠ .OPTIONS then
    return (false, vr)
  vr := { vr with request := { vr.request with uri :=
    { vr.request.uri with path := ext.li_url_decode vr.request.uri.path } } }
  vr := { vr with request := { vr.request with uri :=
    { vr.request.uri with path := ext.li_path_simplify vr.request.uri.path } } }
  if 0 = vr.request.uri.orig_path.length then
    -- save orig path
    vr := { vr with request := { vr.request with uri :=
      { vr.request.uri with orig_path := vr.request.uri.orig_path ++ vr.request.uri.path } } }
  return (true, vr)

/-- The loop over the `Expect` occurrences (`l = find_first; l; l = find_next (l)`): it
visits the entries named `expect` in order; `none` is the early exit on a value other
than `100-continue`, `some e` is the value of the local `expect_100_cont` after the
loop. -/
def expect_loop : liHttpHeaders → Bool → Option Bool
  | [], expect_100_cont => some expect_100_cont
  | hh :: t, expect_100_cont =>
    if li_http_header_key_is hh "expect".toList then
      if 0 = g_strcasecmp hh.value "100-continue".toList then expect_loop t true
      else none
    else expect_loop t expect_100_cont

/-- What a call of `li_request_validate_header` leaves behind: the returned `gboolean`,
the connection and `errno`. -/
structure Outcome where
  ret : Bool
  con : liConnection
  errno : Int
  deriving DecidableEq, Repr

/-- The function `li_request_validate_header`. -/
def li_request_validate_header (ext : Externals) (errno0 : Int) (con0 : liConnection) :
    Outcome := Id.run do
  let mut con := con0
  let mut errno := errno0
  match con.mainvr.request.http_version with
  | .V1_0 =>
    if !li_http_header_is con.mainvr.request.headers "connection".toList "keep-alive".toList then
      con := { con with keep_alive := false }
  | .V1_1 =>
    if li_http_header_is con.mainvr.request.headers "connection".toList "close".toList then
      con := { con with keep_alive := false }
  | .UNSET =>
    return ⟨false, bad_request con 505, errno⟩
  if con.mainvr.request.uri.raw.length = 0 then
    return ⟨false, bad_request con 400, errno⟩
  -- get hostname
  let l := li_http_header_find_first con.mainvr.request.headers "host".toList
  match l with
  | hh :: _ =>
    if li_http_header_find_next l "host".toList ≠ [] then
      -- more than one "host" header
      return ⟨false, bad_request con 400, errno⟩
    con := { con with mainvr := { con.mainvr with request := { con.mainvr.request with uri :=
      { con.mainvr.request.uri with authority := con.mainvr.request.uri.authority ++ hh.value } } } }
    let parsed := ext.li_parse_hostname con.mainvr.request.uri
    con := { con with mainvr := { con.mainvr with request :=
      { con.mainvr.request with uri := parsed.2 } } }
    if !parsed.1 then
      return ⟨false, bad_request con 400, errno⟩
  | [] => pure ()
  -- Need hostname in HTTP/1.1
  if con.mainvr.request.uri.host.length = 0 ∧ con.mainvr.request.http_version = .V1_1 then
    return ⟨false, bad_request con 400, errno⟩
  -- may override hostname
  let url := request_parse_url ext con.mainvr
  con := { con with mainvr := url.2 }
  if !url.1 then
    return ⟨false, bad_request con 400, errno⟩
  -- content-length
  match li_http_header_lookup con.mainvr.request.headers "content-length".toList with
  | some hh =>
    let conv := g_ascii_strtoll hh.value errno
    errno := conv.errno
    if deref conv.err ≠ NUL then
      return ⟨false, bad_request con 400, errno⟩
    -- negative content-length is not supported and is a bad request
    if conv.r < 0 then
      return ⟨false, bad_request con 400, errno⟩
    -- check if we had a over- or underrun in the string conversion
    if conv.r = G_MININT64 ∨ conv.r = G_MAXINT64 then
      if errno = ERANGE then
        return ⟨false, bad_request con 413, errno⟩
    con := { con with mainvr := { con.mainvr with request :=
      { con.mainvr.request with content_length := conv.r } } }
  | none => pure ()
  -- Expect: 100-continue
  let l := li_http_header_find_first con.mainvr.request.headers "expect".toList
  if l ≠ [] then
    match expect_loop l false with
    | none =>
      -- we only support 100-continue
      return ⟨false, bad_request con 417, errno⟩
    | some expect_100_cont =>
      if expect_100_cont ∧ con.mainvr.request.http_version = .V1_0 then
        -- only HTTP/1.1 clients can send us this header
        return ⟨false, bad_request con 417, errno⟩
      con := { con with expect_100_cont := expect_100_cont }
  match con.mainvr.request.http_method with
  | .GET | .HEAD =>
    -- content-length is forbidden for those
    if con.mainvr.request.content_length > 0 then
      return ⟨false, bad_request con 400, errno⟩
    con := { con with mainvr := { con.mainvr with request :=
      { con.mainvr.request with content_length := 0 } } }
  | .POST =>
    -- content-length is required for them
    if con.mainvr.request.content_length = -1 then
      return ⟨false, bad_request con 411, errno⟩
  | _ => pure ()
  return ⟨true, con, errno⟩

/-! ## The validation as a chain of checks

The second description of the validation: the seven checks in their fixed order, each
one either passing the state on or rejecting with a status, composed so that the first
rejection ends the chain. -/

/-- The state the checks pass along: the connection and `errno`. -/
structure St where
  con : liConnection
  errno : Int
  deriving DecidableEq, Repr

/-- A rejection: the status and the state in which the check rejected. -/
abbrev Check := St → Except (Int × St) St

/-- Replace the URI of the request of a connection. -/
def set_uri (con : liConnection) (uri : liRequestUri) : liConnection :=
  { con with mainvr := { con.mainvr with request := { con.mainvr.request with uri := uri } } }

/-- Replace the content length of the request of a connection. -/
def set_content_length (con : liConnection) (n : Int) : liConnection :=
  { con with mainvr := { con.mainvr with request :=
    { con.mainvr.request with content_length := n } } }

/-- Check 1, version (505), together with the persistence default that never rejects. -/
def check_version : Check := fun s =>
  match s.con.mainvr.request.http_version with
  | .UNSET => .error (505, s)
  | .V1_0 =>
    if li_http_header_is s.con.mainvr.request.headers "connection".toList "keep-alive".toList
    then .ok s else .ok { s with con := { s.con with keep_alive := false } }
  | .V1_1 =>
    if li_http_header_is s.con.mainvr.request.headers "connection".toList "close".toList
    then .ok { s with con := { s.con with keep_alive := false } } else .ok s

/-- Check 2, empty request-target (400). -/
def check_target : Check := fun s =>
  if s.con.mainvr.request.uri.raw = [] then .error (400, s) else .ok s

/-- Check 3, Host resolution (400). -/
def check_host (ext : Externals) : Check := fun s =>
  let req := s.con.mainvr.request
  match li_http_header_find_first req.headers "host".toList with
  | [] =>
    if req.uri.host = [] ∧ req.http_version = .V1_1 then .error (400, s) else .ok s
  | hh :: t =>
    if li_http_header_find_first t "host".toList ≠ [] then .error (400, s)
    else
      let parsed := ext.li_parse_hostname { req.uri with authority := req.uri.authority ++ hh.value }
      let s1 := { s with con := set_uri s.con parsed.2 }
      if parsed.1 = false then .error (400, s1)
      else if parsed.2.host = [] ∧ req.http_version = .V1_1 then .error (400, s1)
      else .ok s1

/-- Check 4, URI canonicalization (400). -/
def check_uri (ext : Externals) : Check := fun s =>
  let url := request_parse_url ext s.con.mainvr
  let s1 := { s with con := { s.con with mainvr := url.2 } }
  if url.1 then .ok s1 else .error (400, s1)

/-- Check 5, Content-Length (400 or 413). -/
def check_content_length : Check := fun s =>
  match li_http_header_lookup s.con.mainvr.request.headers "content-length".toList with
  | none => .ok s
  | some hh =>
    let conv := g_ascii_strtoll hh.value s.errno
    let s1 := { s with errno := conv.errno }
    if deref conv.err ≠ NUL then .error (400, s1)
    else if conv.r < 0 then .error (400, s1)
    else if (conv.r = G_MININT64 ∨ conv.r = G_MAXINT64) ∧ conv.errno = ERANGE then
      .error (413, s1)
    else .ok { s1 with con := set_content_length s.con conv.r }

/-- Check 6, Expect (417). -/
def check_expect : Check := fun s =>
  let req := s.con.mainvr.request
  match li_http_header_find_first req.headers "expect".toList with
  | [] => .ok s
  | hh :: t =>
    match expect_loop (hh :: t) false with
    | none => .error (417, s)
    | some e =>
      if e = true ∧ req.http_version = .V1_0 then .error (417, s)
      else .ok { s with con := { s.con with expect_100_cont := e } }

/-- Check 7, method/body interaction (400 or 411). -/
def check_method : Check := fun s =>
  let req := s.con.mainvr.request
  if req.http_method = .GET ∨ req.http_method = .HEAD then
    if req.content_length > 0 then .error (400, s)
    else .ok { s with con := set_content_length s.con 0 }
  else if req.http_method = .POST then
    if req.content_length = -1 then .error (411, s) else .ok s
  else .ok s

/-- The checks that precede the URI canonicalization. -/
def checks_before_uri (ext : Externals) : Check := fun s =>
  check_version s >>= check_target >>= check_host ext

/-- The checks that precede the Content-Length check. -/
def checks_before_content_length (ext : Externals) : Check := fun s =>
  check_version s >>= check_target >>= check_host ext >>= check_uri ext

/-- The checks that precede the method/body check. -/
def checks_before_method (ext : Externals) : Check := fun s =>
  checks_before_content_length ext s >>= check_content_length >>= check_expect

/-- The short-circuiting chain of the seven checks. -/
def validate_chain (ext : Externals) : Check := fun s =>
  checks_before_method ext s >>= check_method

/-- The outcome of a chain: a rejection goes through `bad_request` with its status and
returns `FALSE`; a chain that passes returns `TRUE`. -/
def finish : Except (Int × St) St → Outcome
  | .error (status, s) => ⟨false, bad_request s.con status, s.errno⟩
  | .ok s => ⟨true, s.con, s.errno⟩

/-- The chain from the Expect check on. -/
def chain_from_expect : Check := fun s => check_expect s >>= check_method

/-- The chain from the Content-Length check on. -/
def chain_from_content_length : Check := fun s => check_content_length s >>= chain_from_expect

/-- The chain from the URI check on. -/
def chain_from_uri (ext : Externals) : Check := fun s =>
  check_uri ext s >>= chain_from_content_length

/-- The chain from the Host check on. -/
def chain_from_host (ext : Externals) : Check := fun s => check_host ext s >>= chain_from_uri ext

/-- The chain from the request-target check on. -/
def chain_from_target (ext : Externals) : Check := fun s =>
  check_target s >>= chain_from_host ext

/-! ## Vocabulary of the proofs -/

/-- The state in which a chain ended, rejected or not. -/
def final_state : Except (Int × St) St → St
  | .error (_, s) => s
  | .ok s => s

/-- The fields no check writes: headers, method, method text, version, response status and
the dispatcher count. -/
def Frame (s t : St) : Prop :=
  t.con.mainvr.request.headers = s.con.mainvr.request.headers ∧
  t.con.mainvr.request.http_method = s.con.mainvr.request.http_method ∧
  t.con.mainvr.request.http_method_str = s.con.mainvr.request.http_method_str ∧
  t.con.mainvr.request.http_version = s.con.mainvr.request.http_version ∧
  t.con.mainvr.response_http_status = s.con.mainvr.response_http_status ∧
  t.con.mainvr.handle_direct_calls = s.con.mainvr.handle_direct_calls

/-- What the checks before the Content-Length check leave alone besides the frame:
`errno`, the content length and `expect_100_cont`. -/
def Frame4 (s t : St) : Prop :=
  Frame s t ∧ t.errno = s.errno ∧
  t.con.mainvr.request.content_length = s.con.mainvr.request.content_length ∧
  t.con.expect_100_cont = s.con.expect_100_cont

/-- The statuses a check result may carry: a rejection carries one of `allowed`. -/
def rejects_with (allowed : List Int) (r : Except (Int × St) St) : Prop :=
  match r with
  | .error (st, _) => st ∈ allowed
  | .ok _ => True

/-- The two states have the same `keep_alive`. -/
def SameKeepAlive (s t : St) : Prop := t.con.keep_alive = s.con.keep_alive

/-! ## Strings of digits -/

/-- A decimal digit. -/
def is_digit (c : Char) : Prop := '0'.toNat ≤ c.toNat ∧ c.toNat ≤ '9'.toNat

instance (c : Char) : Decidable (is_digit c) := by
  unfold is_digit
  infer_instance

/-- The number a string of decimal digits denotes when `acc` stands for the digits read
before it. -/
def decimal_from : List Char → Nat → Nat
  | [], acc => acc
  | c :: s, acc => decimal_from s (acc * 10 + (c.toNat - '0'.toNat))

/-- The number a string of decimal digits denotes. -/
def decimal_value (ds : List Char) : Nat := decimal_from ds 0

/-- The texts `g_ascii_strtoll` converts to their end: leading white space, an optional
sign `-` or `+`, then one or more decimal digits and nothing else. -/
def strtoll_number (v : GString) : Bool :=
  match skip_space v with
  | [] => false
  | c :: s1 =>
    let s2 := if c = '-' ∨ c = '+' then s1 else c :: s1
    !s2.isEmpty && s2.all fun x => decide (is_digit x)

/-! ## Sample requests -/

/-- A sample instantiation of the external parsers for concrete runs: the raw-URI parser
takes the whole request-target as the path, the hostname parser takes the authority as
the host and fails on an empty authority, decoding and simplification leave the path as
it is. -/
def sampleExt : Externals :=
  { li_parse_raw_url := fun u => (true, { u with path := u.raw })
    li_parse_hostname := fun u => (!u.authority.isEmpty, { u with host := u.authority })
    li_url_decode := fun p => p
    li_path_simplify := fun p => p }

/-- A connection in the state the request parser hands over: persistent, no pending
100-continue, and a reset request filled in with method, version, request-target and
headers. -/
def mkCon (m : liHttpMethod) (v : liHttpVersion) (raw : GString) (hs : liHttpHeaders) :
    liConnection :=
  { keep_alive := true
    expect_100_cont := false
    mainvr :=
      { request := { li_request_init with
          http_method := m, http_version := v, headers := hs,
          uri := { li_request_init.uri with raw := raw } }
        response_http_status := 0
        handle_direct_calls := 0 } }

/-- The header `Host: a`. -/
def hostA : liHttpHeader := ⟨"Host".toList, "a".toList⟩

/-- A header with the given name and value. -/
def hdr (key value : String) : liHttpHeader := ⟨key.toList, value.toList⟩

/-- A request that passes every check before the Content-Length check and carries
`Content-Length: 9223372036854775807`, validated with `errno` 0. -/
def conInt64Max : liConnection :=
  mkCon .PUT .V1_1 "/".toList [hostA, hdr "Content-Length" "9223372036854775807"]

/-- An HTTP/1.1 request with a Host header and no Connection header, on a connection whose
`keep_alive` is already off. -/
def conKeepAliveOff : liConnection :=
  { mkCon .GET .V1_1 "/".toList [hostA] with keep_alive := false }

/-- A request with a Host header whose method the request parser left unset. -/
def conUnsetMethod : liConnection := mkCon .UNSET .V1_1 "/".toList [hostA]

/-- A request with the header `Content-Length: +5`. -/
def conPlusFive : liConnection :=
  mkCon .PUT .V1_1 "/".toList [hostA, hdr "Content-Length" "+5"]

/-! ## The function is the chain -/

theorem validate_chain_nested (ext : Externals) (s : St) :
    validate_chain ext s = (check_version s >>= chain_from_target ext) := by
  simp only [validate_chain, checks_before_method, checks_before_content_length, bind_assoc]
  rfl

theorem finish_error (st : Int) (s : St) :
    finish (Except.error (st, s)) = ⟨false, bad_request s.con st, s.errno⟩ := rfl

theorem finish_ok (s : St) : finish (Except.ok s) = ⟨true, s.con, s.errno⟩ := rfl

theorem error_bind (e : Int × St) (f : Check) : (Except.error e >>= f) = Except.error e := rfl

theorem ok_bind (s : St) (f : Check) : (Except.ok s >>= f) = f s := rfl

theorem validate_eq_chain (ext : Externals) (errno : Int) (con : liConnection) :
    li_request_validate_header ext errno con = finish (validate_chain ext ⟨con, errno⟩) := by
  rw [validate_chain_nested]
  unfold li_request_validate_header
  lift_lets
  intro con0 errno0 jp_expect jp_cl jp_uri jp_need jp_host jp_target con_ka
  have h_expect : ∀ c e, jp_expect c e PUnit.unit = finish (chain_from_expect ⟨c, e⟩) := by
    intro c e
    simp only [jp_expect, chain_from_expect, check_expect, pure, bind, Id.run]
    rcases hl : li_http_header_find_first c.mainvr.request.headers "expect".toList
      with _ | ⟨hh, t⟩
    · simp only [ne_eq, not_true_eq_false, ↓reduceIte, Except.bind, check_method]
      rcases hm : c.mainvr.request.http_method <;>
        simp [finish, set_content_length, hm] <;> split <;> simp [hm]
    · simp only [ne_eq, reduceCtorEq, not_false_eq_true, ↓reduceIte]
      rcases he : expect_loop (hh :: t) false with _ | b
      · simp [finish, Except.bind]
      · simp only []
        split
        · simp [finish, Except.bind]
        · simp only [Except.bind, check_method]
          rcases hm : c.mainvr.request.http_method <;>
            simp [finish, set_content_length, hm] <;> split <;> simp [hm]
  have h_cl : ∀ c e, jp_cl c e PUnit.unit = finish (chain_from_content_length ⟨c, e⟩) := by
    intro c e
    simp only [jp_cl, chain_from_content_length, check_content_length, pure, bind, Id.run]
    rcases hl : li_http_header_lookup c.mainvr.request.headers "content-length".toList
      with _ | hh
    · simp only [h_expect, Except.bind]
    · simp only [h_expect]
      generalize g_ascii_strtoll hh.value e = conv
      by_cases h1 : deref conv.err ≠ NUL
      · simp [h1, finish, Except.bind]
      by_cases h2 : conv.r < 0
      · simp [h1, h2, finish, Except.bind]
      by_cases h3 : (conv.r = G_MININT64 ∨ conv.r = G_MAXINT64) ∧ conv.errno = ERANGE
      · simp only [h1, h2, h3, ↓reduceIte, true_and, true_or]
        rcases h3 with ⟨h3, h4⟩
        simp [h3, h4, finish, Except.bind]
      · simp only [h1, h2, h3, ↓reduceIte, Except.bind]
        split
        · split
          · rename_i h5 h6
            exact absurd ⟨h5, h6⟩ h3
          · rfl
        · rfl
  have h_uri : ∀ c e, jp_uri c e PUnit.unit = finish (chain_from_uri ext ⟨c, e⟩) := by
    intro c e
    simp only [jp_uri, chain_from_uri, check_uri, pure, bind, Id.run, h_cl]
    by_cases h1 : (request_parse_url ext c.mainvr).1 = true
    · simp [h1, Except.bind]
    · simp [h1, Except.bind, finish]
  have h_need : ∀ c e, jp_need c e PUnit.unit =
      if c.mainvr.request.uri.host = [] ∧ c.mainvr.request.http_version = .V1_1 then
        ⟨false, bad_request c 400, e⟩
      else finish (chain_from_uri ext ⟨c, e⟩) := by
    intro c e
    simp only [jp_need, pure, bind, Id.run, h_uri, List.length_eq_zero]
  have h_host : ∀ c e, jp_host c e PUnit.unit = finish (chain_from_host ext ⟨c, e⟩) := by
    intro c e
    simp only [jp_host, chain_from_host, check_host, pure, bind, Id.run, h_need]
    rcases hl : li_http_header_find_first c.mainvr.request.headers "host".toList
      with _ | ⟨hh, t⟩
    · simp only []
      split
      · simp [finish, Except.bind]
      · simp [Except.bind]
    · simp only [li_http_header_find_next, List.tail_cons, set_uri]
      generalize ext.li_parse_hostname _ = parsed
      by_cases h1 : li_http_header_find_first t "host".toList = []
      · simp only [h1, ne_eq, not_true_eq_false, ↓reduceIte]
        rcases hp : parsed.1
        · simp [hp, finish, Except.bind]
        · simp only [hp, ↓reduceIte, Bool.not_true, Bool.false_eq_true, ne_eq,
            not_true_eq_false, reduceCtorEq]
          split
          · simp [finish, Except.bind]
          · simp [Except.bind]
      · simp only [h1, ne_eq, not_false_eq_true, ↓reduceIte]
        rfl
  have h_target : ∀ c e, jp_target c e PUnit.unit = finish (chain_from_target ext ⟨c, e⟩) := by
    intro c e
    simp only [jp_target, chain_from_target, check_target, pure, bind, Id.run, h_host,
      List.length_eq_zero]
    split
    · simp [finish, Except.bind]
    · simp [Except.bind]
  simp only [pure, bind, Id.run, h_target, check_version, con0, errno0, con_ka]
  rcases hv : con.mainvr.request.http_version
  · simp [finish, Except.bind]
  · simp only []
    rcases hk : li_http_header_is con.mainvr.request.headers "connection".toList
      "keep-alive".toList <;> simp [Except.bind]
  · simp only []
    rcases hk : li_http_header_is con.mainvr.request.headers "connection".toList
      "close".toList <;> simp [Except.bind]

/-! ## What the checks leave alone -/

/-- The canonicalizer only writes the URI of the request. -/
theorem request_parse_url_frame (ext : Externals) (vr : liVRequest) :
    (request_parse_url ext vr).2 =
      { vr with request := { vr.request with uri := (request_parse_url ext vr).2.request.uri } } := by
  simp only [request_parse_url, Id.run, pure, bind]
  split
  · rfl
  · split
    · rfl
    · split <;> rfl

theorem Frame_refl (s : St) : Frame s s := ⟨rfl, rfl, rfl, rfl, rfl, rfl⟩

theorem Frame_trans {s t u : St} (hst : Frame s t) (htu : Frame t u) : Frame s u :=
  ⟨htu.1.trans hst.1, htu.2.1.trans hst.2.1, htu.2.2.1.trans hst.2.2.1,
    htu.2.2.2.1.trans hst.2.2.2.1, htu.2.2.2.2.1.trans hst.2.2.2.2.1,
    htu.2.2.2.2.2.trans hst.2.2.2.2.2⟩

theorem check_version_frame (s : St) : Frame s (final_state (check_version s)) := by
  unfold check_version
  split
  · exact Frame_refl s
  · split <;> exact ⟨rfl, rfl, rfl, rfl, rfl, rfl⟩
  · split <;> exact ⟨rfl, rfl, rfl, rfl, rfl, rfl⟩

theorem check_target_frame (s : St) : Frame s (final_state (check_target s)) := by
  unfold check_target
  split <;> exact Frame_refl s

theorem check_host_frame (ext : Externals) (s : St) :
    Frame s (final_state (check_host ext s)) := by
  unfold check_host
  simp only []
  split
  · split <;> exact Frame_refl s
  · split
    · exact Frame_refl s
    · split
      · exact ⟨rfl, rfl, rfl, rfl, rfl, rfl⟩
      · split <;> exact ⟨rfl, rfl, rfl, rfl, rfl, rfl⟩

theorem check_uri_frame (ext : Externals) (s : St) :
    Frame s (final_state (check_uri ext s)) := by
  have h := request_parse_url_frame ext s.con.mainvr
  unfold check_uri
  simp only []
  split <;> (simp only [final_state, Frame]; rw [h]; exact ⟨rfl, rfl, rfl, rfl, rfl, rfl⟩)

theorem check_content_length_frame (s : St) :
    Frame s (final_state (check_content_length s)) := by
  unfold check_content_length
  split
  · exact Frame_refl s
  · simp only []
    split
    · exact ⟨rfl, rfl, rfl, rfl, rfl, rfl⟩
    · split
      · exact ⟨rfl, rfl, rfl, rfl, rfl, rfl⟩
      · split <;> exact ⟨rfl, rfl, rfl, rfl, rfl, rfl⟩

theorem check_expect_frame (s : St) : Frame s (final_state (check_expect s)) := by
  unfold check_expect
  simp only []
  split
  · exact Frame_refl s
  · split
    · exact Frame_refl s
    · split <;> exact ⟨rfl, rfl, rfl, rfl, rfl, rfl⟩

theorem check_method_frame (s : St) : Frame s (final_state (check_method s)) := by
  unfold check_method
  simp only []
  split
  · split <;> exact ⟨rfl, rfl, rfl, rfl, rfl, rfl⟩
  · split
    · split <;> exact Frame_refl s
    · exact Frame_refl s

/-- A frame property of two checks holds for their composition. -/
theorem bind_frame (P : St → St → Prop) (htrans : ∀ {a b c}, P a b → P b c → P a c)
    (r : Except (Int × St) St) (f : Check) (s : St)
    (h1 : P s (final_state r)) (h2 : ∀ t, P t (final_state (f t))) :
    P s (final_state (r >>= f)) := by
  rcases r with ⟨st, t⟩ | t
  · exact h1
  · exact htrans h1 (h2 t)

theorem checks_before_content_length_frame (ext : Externals) (s : St) :
    Frame s (final_state (checks_before_content_length ext s)) := by
  unfold checks_before_content_length
  exact bind_frame Frame Frame_trans _ _ _
    (bind_frame Frame Frame_trans _ _ _
      (bind_frame Frame Frame_trans _ _ _ (check_version_frame s) check_target_frame)
      (check_host_frame ext)) (check_uri_frame ext)

theorem checks_before_method_frame (ext : Externals) (s : St) :
    Frame s (final_state (checks_before_method ext s)) := by
  unfold checks_before_method
  exact bind_frame Frame Frame_trans _ _ _
    (bind_frame Frame Frame_trans _ _ _ (checks_before_content_length_frame ext s)
      check_content_length_frame) check_expect_frame

theorem validate_chain_frame (ext : Externals) (s : St) :
    Frame s (final_state (validate_chain ext s)) := by
  unfold validate_chain
  exact bind_frame Frame Frame_trans _ _ _ (checks_before_method_frame ext s) check_method_frame

theorem Frame4_refl (s : St) : Frame4 s s := ⟨Frame_refl s, rfl, rfl, rfl⟩

theorem Frame4_trans {s t u : St} (hst : Frame4 s t) (htu : Frame4 t u) : Frame4 s u :=
  ⟨Frame_trans hst.1 htu.1, htu.2.1.trans hst.2.1, htu.2.2.1.trans hst.2.2.1,
    htu.2.2.2.trans hst.2.2.2⟩

theorem check_version_frame4 (s : St) : Frame4 s (final_state (check_version s)) := by
  refine ⟨check_version_frame s, ?_⟩
  unfold check_version
  split
  · exact ⟨rfl, rfl, rfl⟩
  · split <;> exact ⟨rfl, rfl, rfl⟩
  · split <;> exact ⟨rfl, rfl, rfl⟩

theorem check_target_frame4 (s : St) : Frame4 s (final_state (check_target s)) := by
  unfold check_target
  split <;> exact Frame4_refl s

theorem check_host_frame4 (ext : Externals) (s : St) :
    Frame4 s (final_state (check_host ext s)) := by
  refine ⟨check_host_frame ext s, ?_⟩
  unfold check_host
  simp only []
  split
  · split <;> exact ⟨rfl, rfl, rfl⟩
  · split
    · exact ⟨rfl, rfl, rfl⟩
    · split
      · exact ⟨rfl, rfl, rfl⟩
      · split <;> exact ⟨rfl, rfl, rfl⟩

theorem check_uri_frame4 (ext : Externals) (s : St) :
    Frame4 s (final_state (check_uri ext s)) := by
  refine ⟨check_uri_frame ext s, ?_⟩
  have h := request_parse_url_frame ext s.con.mainvr
  unfold check_uri
  simp only []
  split <;> (simp only [final_state]; rw [h]; simp)

theorem checks_before_content_length_frame4 (ext : Externals) (s : St) :
    Frame4 s (final_state (checks_before_content_length ext s)) := by
  unfold checks_before_content_length
  exact bind_frame Frame4 Frame4_trans _ _ _
    (bind_frame Frame4 Frame4_trans _ _ _
      (bind_frame Frame4 Frame4_trans _ _ _ (check_version_frame4 s) check_target_frame4)
      (check_host_frame4 ext)) (check_uri_frame4 ext)

/-- When the checks before the Content-Length check pass, the call is the chain from the
Content-Length check on, and the state it starts from has the headers, method, version,
content length and `errno` of the entry state. -/
theorem validate_from_content_length (ext : Externals) (errno : Int) (con : liConnection)
    (s4 : St) (hpre : checks_before_content_length ext ⟨con, errno⟩ = .ok s4) :
    li_request_validate_header ext errno con = finish (chain_from_content_length s4) ∧
    Frame4 ⟨con, errno⟩ s4 := by
  constructor
  · rw [validate_eq_chain]
    simp only [validate_chain, checks_before_method, hpre, bind_assoc, ok_bind,
      chain_from_content_length]
    rfl
  · have h := checks_before_content_length_frame4 ext ⟨con, errno⟩
    rw [hpre] at h
    exact h

/-! ## Statuses of the checks -/

theorem rejects_with_mono {a b : List Int} (hab : ∀ x, x ∈ a → x ∈ b)
    {r : Except (Int × St) St} (h : rejects_with a r) : rejects_with b r := by
  rcases r with ⟨st, t⟩ | t
  · exact hab _ h
  · trivial

theorem rejects_with_bind {a : List Int} (r : Except (Int × St) St) (f : Check)
    (h1 : rejects_with a r) (h2 : ∀ t, rejects_with a (f t)) : rejects_with a (r >>= f) := by
  rcases r with ⟨st, t⟩ | t
  · exact h1
  · exact h2 t

theorem check_version_status (s : St) : rejects_with [505] (check_version s) := by
  unfold check_version
  split
  · simp [rejects_with]
  · split <;> trivial
  · split <;> trivial

theorem check_target_status (s : St) : rejects_with [400] (check_target s) := by
  unfold check_target
  split
  · simp [rejects_with]
  · trivial

theorem check_host_status (ext : Externals) (s : St) :
    rejects_with [400] (check_host ext s) := by
  unfold check_host
  simp only []
  split
  · split
    · simp [rejects_with]
    · trivial
  · split
    · simp [rejects_with]
    · split
      · simp [rejects_with]
      · split
        · simp [rejects_with]
        · trivial

theorem check_uri_status (ext : Externals) (s : St) : rejects_with [400] (check_uri ext s) := by
  unfold check_uri
  simp only []
  split
  · trivial
  · simp [rejects_with]

theorem check_content_length_status (s : St) :
    rejects_with [400, 413] (check_content_length s) := by
  unfold check_content_length
  split
  · trivial
  · simp only []
    split
    · simp [rejects_with]
    · split
      · simp [rejects_with]
      · split
        · simp [rejects_with]
        · trivial

theorem check_expect_status (s : St) : rejects_with [417] (check_expect s) := by
  unfold check_expect
  simp only []
  split
  · trivial
  · split
    · simp [rejects_with]
    · split
      · simp [rejects_with]
      · trivial

theorem check_method_status (s : St) : rejects_with [400, 411] (check_method s) := by
  unfold check_method
  simp only []
  split
  · split
    · simp [rejects_with]
    · trivial
  · split
    · split
      · simp [rejects_with]
      · trivial
    · trivial

theorem validate_chain_status (ext : Externals) (s : St) :
    rejects_with [400, 411, 413, 417, 505] (validate_chain ext s) := by
  unfold validate_chain checks_before_method checks_before_content_length
  refine rejects_with_bind _ _ (rejects_with_bind _ _ (rejects_with_bind _ _
    (rejects_with_bind _ _ (rejects_with_bind _ _ (rejects_with_bind _ _ ?_ ?_) ?_) ?_) ?_) ?_) ?_
  · exact rejects_with_mono (by simp) (check_version_status s)
  · exact fun t => rejects_with_mono (by simp) (check_target_status t)
  · exact fun t => rejects_with_mono (by simp) (check_host_status ext t)
  · exact fun t => rejects_with_mono (by simp) (check_uri_status ext t)
  · exact fun t => rejects_with_mono (by simp) (check_content_length_status t)
  · exact fun t => rejects_with_mono (by simp) (check_expect_status t)
  · exact fun t => rejects_with_mono (by simp) (check_method_status t)

/-! ## The integer parser on strings of digits -/

theorem decimal_from_ge (ds : List Char) (acc : Nat) : acc ≤ decimal_from ds acc := by
  induction ds generalizing acc with
  | nil => exact Nat.le_refl _
  | cons c s ih =>
    have h1 : acc ≤ acc * 10 + (c.toNat - '0'.toNat) := by omega
    exact Nat.le_trans h1 (ih _)

theorem parse_digits_of_digits (ds : List Char) (hd : ∀ c ∈ ds, is_digit c) (acc : Nat)
    (ov : Bool) :
    (parse_digits ds acc ov).rest = [] ∧
    (ov = true → (parse_digits ds acc ov).overflow = true) ∧
    (ov = false → decimal_from ds acc ≤ G_MAXUINT64 →
      parse_digits ds acc ov = ⟨decimal_from ds acc, false, []⟩) ∧
    (ov = false → acc ≤ G_MAXUINT64 → G_MAXUINT64 < decimal_from ds acc →
      (parse_digits ds acc ov).overflow = true) := by
  induction ds generalizing acc ov with
  | nil =>
    refine ⟨rfl, fun h => h, fun h _ => ?_, fun _ h1 h2 => ?_⟩
    · simp [parse_digits, decimal_from, h]
    · simp only [decimal_from] at h2
      omega
  | cons c s ih =>
    have hc : is_digit c := hd c (List.mem_cons_self c s)
    have hs : ∀ x ∈ s, is_digit x := fun x hx => hd x (List.mem_cons_of_mem c hx)
    have hc2 : '0'.toNat ≤ c.toNat ∧ c.toNat ≤ '9'.toNat := hc
    have h0 : '0'.toNat = 48 := rfl
    have h9 : '9'.toNat = 57 := rfl
    have hq : G_MAXUINT64 / 10 = 1844674407370955161 := by norm_num [G_MAXUINT64]
    have hr : G_MAXUINT64 % 10 = 5 := by norm_num [G_MAXUINT64]
    have hm : G_MAXUINT64 = 18446744073709551615 := rfl
    simp only [parse_digits, if_pos hc2, decimal_from]
    have hge := decimal_from_ge s (acc * 10 + (c.toNat - '0'.toNat))
    by_cases hov : acc > G_MAXUINT64 / 10 ∨
        (acc = G_MAXUINT64 / 10 ∧ c.toNat - '0'.toNat > G_MAXUINT64 % 10)
    · rw [if_pos hov]
      obtain ⟨i1, i2, -, -⟩ := ih hs acc true
      refine ⟨i1, fun _ => i2 rfl, fun _ hle => ?_, fun _ _ _ => i2 rfl⟩
      rw [hq, hr] at hov
      omega
    · rw [if_neg hov]
      obtain ⟨i1, i2, i3, i4⟩ := ih hs (acc * 10 + (c.toNat - '0'.toNat)) ov
      refine ⟨i1, i2, i3, fun h1 _ h3 => i4 h1 ?_ h3⟩
      rw [hq, hr] at hov
      omega

theorem digit_not_space (c : Char) (hc : is_digit c) : ISSPACE c = false := by
  have h0 : '0'.toNat = 48 := rfl
  have h9 : '9'.toNat = 57 := rfl
  obtain ⟨h1, h2⟩ := hc
  simp only [ISSPACE, Bool.or_eq_false_iff, decide_eq_false_iff_not]
  refine ⟨⟨⟨⟨⟨?_, ?_⟩, ?_⟩, ?_⟩, ?_⟩, ?_⟩ <;>
    (intro h; rw [h] at h1 h2; revert h1 h2; decide)

theorem digit_not_sign (c : Char) (hc : is_digit c) : ¬ (c = '-' ∨ c = '+') := by
  obtain ⟨h1, h2⟩ := hc
  rintro (h | h) <;> (rw [h] at h1 h2; revert h1 h2; decide)

/-- The parser on a non-empty string of digits: the number it denotes, saturated at the
signed 64-bit maximum with `errno` set to `ERANGE`; everything is consumed. -/
theorem g_ascii_strtoll_digits (ds : List Char) (hne : ds ≠ []) (hd : ∀ c ∈ ds, is_digit c)
    (errno : Int) :
    g_ascii_strtoll ds errno =
      if (decimal_value ds : Int) > G_MAXINT64 then ⟨G_MAXINT64, [], ERANGE⟩
      else ⟨decimal_value ds, [], errno⟩ := by
  rcases ds with _ | ⟨c, s⟩
  · exact absurd rfl hne
  · have hc : is_digit c := hd c (List.mem_cons_self c s)
    obtain ⟨p1, -, p3, p4⟩ := parse_digits_of_digits (c :: s) hd 0 false
    have hsign := digit_not_sign c hc
    have hneg : c ≠ '-' := fun h => hsign (Or.inl h)
    have hpos : c ≠ '+' := fun h => hsign (Or.inr h)
    simp only [g_ascii_strtoll, skip_space, digit_not_space c hc, Bool.false_eq_true,
      ↓reduceIte, p1, decide_eq_true_eq, hneg, hpos, or_self, false_and, not_false_eq_true,
      true_and, decimal_value]
    have hrest : ¬ ([] : List Char) = c :: s := by simp
    rw [if_neg hrest]
    have hm : G_MAXUINT64 = 18446744073709551615 := rfl
    have hi : G_MAXINT64 = 9223372036854775807 := rfl
    by_cases hbig : decimal_from (c :: s) 0 ≤ G_MAXUINT64
    · rw [p3 rfl hbig]
      simp only [Bool.false_eq_true, ↓reduceIte]
    · have hov := p4 rfl (by omega) (by omega)
      rw [hov]
      simp only [↓reduceIte]
      have h1 : ((G_MAXUINT64 : Nat) : Int) > G_MAXINT64 := by
        norm_num [G_MAXUINT64, G_MAXINT64]
      have h2 : ((decimal_from (c :: s) 0 : Nat) : Int) > G_MAXINT64 := by
        rw [hi]
        omega
      rw [if_pos h1, if_pos h2]

/-- The parser on `-` followed by a non-empty string of digits: the negated number,
saturated at the signed 64-bit minimum with `errno` set to `ERANGE`. -/
theorem g_ascii_strtoll_neg_digits (ds : List Char) (hne : ds ≠ [])
    (hd : ∀ c ∈ ds, is_digit c) (errno : Int) :
    g_ascii_strtoll ('-' :: ds) errno =
      if (decimal_value ds : Int) > -G_MININT64 then ⟨G_MININT64, [], ERANGE⟩
      else ⟨-(decimal_value ds : Int), [], errno⟩ := by
  obtain ⟨p1, -, p3, p4⟩ := parse_digits_of_digits ds hd 0 false
  have hsp : ISSPACE '-' = false := by decide
  simp only [g_ascii_strtoll, skip_space, hsp, Bool.false_eq_true, ↓reduceIte, true_or,
    p1, decide_True, true_and, not_true_eq_false, false_and, decimal_value]
  have hrest : ¬ ([] : List Char) = ds := fun h => hne h.symm
  rw [if_neg hrest]
  have hm : G_MAXUINT64 = 18446744073709551615 := rfl
  have hi : -G_MININT64 = 9223372036854775808 := rfl
  by_cases hbig : decimal_from ds 0 ≤ G_MAXUINT64
  · rw [p3 rfl hbig]
    simp only [Bool.false_eq_true, ↓reduceIte]
  · have hov := p4 rfl (by omega) (by omega)
    rw [hov]
    simp only [↓reduceIte]
    have h1 : ((G_MAXUINT64 : Nat) : Int) > -G_MININT64 := by
      norm_num [G_MAXUINT64, G_MININT64]
    have h2 : ((decimal_from ds 0 : Nat) : Int) > -G_MININT64 := by
      rw [hi]
      omega
    rw [if_pos h1, if_pos h2]

/-- With a set version and two Host headers the call is `bad_request (con, 400)`. -/
theorem duplicate_host_outcome (ext : Externals) (errno : Int) (con : liConnection)
    (hv : con.mainvr.request.http_version ≠ .UNSET) (hh : liHttpHeader) (t : liHttpHeaders)
    (h1 : li_http_header_find_first con.mainvr.request.headers "host".toList = hh :: t)
    (h2 : li_http_header_find_next (hh :: t) "host".toList ≠ []) :
    li_request_validate_header ext errno con = ⟨false, bad_request con 400, errno⟩ := by
  rw [validate_eq_chain, validate_chain_nested]
  simp only [li_http_header_find_next, List.tail_cons] at h2
  have host_rejects : ∀ c : liConnection,
      c.mainvr.request.headers = con.mainvr.request.headers →
      check_host ext ⟨c, errno⟩ = .error (400, ⟨c, errno⟩) := by
    intro c hc
    simp only [check_host, hc, h1]
    rw [if_pos h2]
  have target_rejects : ∀ c : liConnection,
      c.mainvr.request.headers = con.mainvr.request.headers →
      finish (chain_from_target ext ⟨c, errno⟩) = ⟨false, bad_request c 400, errno⟩ := by
    intro c hc
    simp only [chain_from_target, check_target]
    split
    · rfl
    · simp only [ok_bind, chain_from_host, host_rejects c hc]
      rfl
  rcases hver : con.mainvr.request.http_version
  · exact absurd hver hv
  · simp only [check_version, hver]
    split
    · exact target_rejects con rfl
    · exact target_rejects { con with keep_alive := false } rfl
  · simp only [check_version, hver]
    split
    · exact target_rejects { con with keep_alive := false } rfl
    · exact target_rejects con rfl

/-! ## What the integer parser converts to the end -/

/-- A digit loop that reads to the end has read digits only. -/
theorem parse_digits_rest_nil (s : GString) (acc : Nat) (ov : Bool)
    (h : (parse_digits s acc ov).rest = []) : ∀ c ∈ s, is_digit c := by
  induction s generalizing acc ov with
  | nil => exact fun c hc => absurd hc (List.not_mem_nil c)
  | cons x t ih =>
    simp only [parse_digits] at h
    split at h
    · rename_i hx
      have ht : ∀ c ∈ t, is_digit c := by
        split at h
        · exact ih _ _ h
        · exact ih _ _ h
      intro c hc
      rcases List.mem_cons.mp hc with hcx | hct
      · rw [hcx]
        exact hx
      · exact ht c hct
    · exact absurd h (by simp)

/-- White space is skipped from a non-empty text only. -/
theorem skip_space_cons (v : GString) (c : Char) (s1 : GString)
    (h : skip_space v = c :: s1) : v ≠ [] := by
  rintro rfl
  simp [skip_space] at h

/-- The parser reads a text to its end exactly when the text is empty or of the form
white space, optional sign, digits. -/
theorem g_ascii_strtoll_err_nil (v : GString) (errno : Int) :
    (g_ascii_strtoll v errno).err = [] ↔ (v = [] ∨ strtoll_number v = true) := by
  unfold g_ascii_strtoll strtoll_number
  rcases hs : skip_space v with _ | ⟨c, s1⟩
  · simp
  · have hv : v ≠ [] := skip_space_cons v c s1 hs
    simp only []
    generalize (if c = '-' ∨ c = '+' then s1 else c :: s1) = s2
    by_cases hform : s2 ≠ [] ∧ ∀ x ∈ s2, is_digit x
    · obtain ⟨hne, hd⟩ := hform
      have hrest := (parse_digits_of_digits s2 hd 0 false).1
      have hno : ¬ (parse_digits s2 0 false).rest = s2 := by
        rw [hrest]
        exact fun h => hne h.symm
      rw [if_neg hno]
      have hall : (!s2.isEmpty && s2.all fun x => decide (is_digit x)) = true := by
        rcases s2 with _ | ⟨x, t⟩
        · exact absurd rfl hne
        · simp only [List.isEmpty_cons, Bool.not_false, Bool.true_and, List.all_eq_true,
            decide_eq_true_eq]
          exact hd
      simp only [hall, or_true, iff_true]
      split_ifs <;> exact hrest
    · have hall : (!s2.isEmpty && s2.all fun x => decide (is_digit x)) = false := by
        rcases s2 with _ | ⟨x, t⟩
        · rfl
        · rw [Bool.eq_false_iff]
          intro h
          simp only [List.isEmpty_cons, Bool.not_false, Bool.true_and, List.all_eq_true,
            decide_eq_true_eq] at h
          exact hform ⟨by simp, h⟩
      simp only [hall, Bool.false_eq_true, or_false, hv, iff_false]
      by_cases hno : (parse_digits s2 0 false).rest = s2
      · rw [if_pos hno]
        exact hv
      · rw [if_neg hno]
        have hrest : ¬ (parse_digits s2 0 false).rest = [] := by
          intro h
          refine hform ⟨?_, parse_digits_rest_nil s2 0 false h⟩
          rintro rfl
          exact hno h
        split_ifs <;> exact hrest

/-! ## Texts with a NUL -/

theorem deref_nil : deref [] = NUL := rfl

/-- Reading NUL through a pointer means the C string from there on is empty. -/
theorem deref_eq_NUL_iff (s : GString) : deref s = NUL ↔ c_str s = [] := by
  rcases s with _ | ⟨c, t⟩
  · exact ⟨fun _ => rfl, fun _ => rfl⟩
  · simp only [deref, List.headD_cons, c_str]
    constructor
    · intro h
      rw [if_pos h]
    · intro h
      by_contra hc
      rw [if_neg hc] at h
      exact absurd h (by simp)

theorem NUL_not_digit : ¬ is_digit NUL := by decide

theorem NUL_not_space : ISSPACE NUL = false := by decide

theorem NUL_not_sign : ¬ (NUL = '-' ∨ NUL = '+') := by decide

theorem skip_space_c_str (v : GString) : skip_space (c_str v) = c_str (skip_space v) := by
  induction v with
  | nil => rfl
  | cons c t ih =>
    by_cases hc : c = NUL
    · rw [hc]
      simp only [c_str, skip_space, NUL_not_space, Bool.false_eq_true, ↓reduceIte]
    · simp only [c_str, if_neg hc, skip_space]
      split
      · exact ih
      · simp only [c_str, if_neg hc]

/-- The digit loop on the C string of a text is the digit loop on the text. -/
theorem parse_digits_c_str (s : GString) (acc : Nat) (ov : Bool) :
    parse_digits (c_str s) acc ov
      = ⟨(parse_digits s acc ov).ui64, (parse_digits s acc ov).overflow,
          c_str (parse_digits s acc ov).rest⟩ := by
  induction s generalizing acc ov with
  | nil => rfl
  | cons c t ih =>
    by_cases hc : c = NUL
    · have hd : ¬ ('0'.toNat ≤ NUL.toNat ∧ NUL.toNat ≤ '9'.toNat) := NUL_not_digit
      rw [hc]
      simp only [c_str, ↓reduceIte, parse_digits, if_neg hd]
    · simp only [c_str, if_neg hc, parse_digits]
      split
      · split
        · exact ih _ _
        · exact ih _ _
      · simp only [c_str, if_neg hc]

/-- The digit loop makes no progress exactly on the empty text and on a text that does not
start with a digit. -/
theorem parse_digits_rest_length (s : GString) (acc : Nat) (ov : Bool) :
    (parse_digits s acc ov).rest.length ≤ s.length := by
  induction s generalizing acc ov with
  | nil => exact Nat.le_refl _
  | cons c t ih =>
    simp only [parse_digits]
    split
    · split
      · exact Nat.le_succ_of_le (ih _ _)
      · exact Nat.le_succ_of_le (ih _ _)
    · exact Nat.le_refl _

theorem parse_digits_no_progress (s : GString) (acc : Nat) (ov : Bool) :
    (parse_digits s acc ov).rest = s ↔ (s = [] ∨ ¬ is_digit (deref s)) := by
  rcases s with _ | ⟨c, t⟩
  · exact ⟨fun _ => Or.inl rfl, fun _ => rfl⟩
  · simp only [deref, List.headD_cons, reduceCtorEq, false_or]
    by_cases hd : is_digit c
    · have hd2 : '0'.toNat ≤ c.toNat ∧ c.toNat ≤ '9'.toNat := hd
      simp only [hd, not_true_eq_false, iff_false]
      intro h
      have hlen : (parse_digits (c :: t) acc ov).rest.length ≤ t.length := by
        simp only [parse_digits, if_pos hd2]
        split
        · exact parse_digits_rest_length _ _ _
        · exact parse_digits_rest_length _ _ _
      rw [h] at hlen
      simp only [List.length_cons] at hlen
      omega
    · have hd2 : ¬ ('0'.toNat ≤ c.toNat ∧ c.toNat ≤ '9'.toNat) := hd
      simp only [hd, not_false_eq_true, iff_true, parse_digits, if_neg hd2]

theorem parse_digits_no_progress_c_str (s : GString) (acc : Nat) (ov : Bool) :
    c_str (parse_digits s acc ov).rest = c_str s ↔ (parse_digits s acc ov).rest = s := by
  have h1 := parse_digits_no_progress (c_str s) acc ov
  rw [parse_digits_c_str] at h1
  simp only at h1
  rw [h1, parse_digits_no_progress s acc ov]
  rcases s with _ | ⟨c, t⟩
  · simp [c_str]
  · by_cases hc : c = NUL
    · rw [hc]
      simp [c_str, deref, NUL_not_digit]
    · simp [c_str, if_neg hc, deref]

/-- The parser on the C string of a text gives the value and `errno` it gives on the text,
and stops where it stops on the text. -/
theorem g_ascii_strtoll_c_str (v : GString) (errno : Int) :
    g_ascii_strtoll (c_str v) errno
      = ⟨(g_ascii_strtoll v errno).r, c_str (g_ascii_strtoll v errno).err,
          (g_ascii_strtoll v errno).errno⟩ := by
  unfold g_ascii_strtoll
  rw [skip_space_c_str]
  rcases hs : skip_space v with _ | ⟨c, s1⟩
  · rfl
  · by_cases hc : c = NUL
    · have hd : ¬ ('0'.toNat ≤ NUL.toNat ∧ NUL.toNat ≤ '9'.toNat) := NUL_not_digit
      rw [hc]
      simp only [c_str, ↓reduceIte, if_neg NUL_not_sign, parse_digits, if_neg hd]
    · simp only [c_str, if_neg hc]
      have hs2 : (if c = '-' ∨ c = '+' then c_str s1 else c :: c_str s1)
          = c_str (if c = '-' ∨ c = '+' then s1 else c :: s1) := by
        split
        · rfl
        · simp only [c_str, if_neg hc]
      rw [hs2]
      generalize (if c = '-' ∨ c = '+' then s1 else c :: s1) = s2
      rw [parse_digits_c_str]
      simp only []
      by_cases hno : (parse_digits s2 0 false).rest = s2
      · rw [if_pos ((parse_digits_no_progress_c_str s2 0 false).mpr hno), if_pos hno]
      · rw [if_neg (fun h => hno ((parse_digits_no_progress_c_str s2 0 false).mp h)),
          if_neg hno]
        split_ifs <;> rfl

/-- Leading white space does not change the value converted. -/
theorem g_ascii_strtoll_r_skip (ws x : GString) (hws : ∀ c ∈ ws, ISSPACE c = true)
    (errno : Int) : (g_ascii_strtoll (ws ++ x) errno).r = (g_ascii_strtoll x errno).r := by
  have hskip : skip_space (ws ++ x) = skip_space x := by
    induction ws with
    | nil => rfl
    | cons c t ih =>
      have hc : ISSPACE c = true := hws c (List.mem_cons_self c t)
      simp only [List.cons_append, skip_space, hc, ↓reduceIte]
      exact ih fun y hy => hws y (List.mem_cons_of_mem c hy)
  unfold g_ascii_strtoll
  rw [hskip]
  rcases skip_space x with _ | ⟨c, s1⟩
  · rfl
  · simp only []
    split_ifs <;> rfl

/-- What the test `*err != NUL` after the conversion sees: `err` reads NUL exactly when the
C string of the text is empty or of the form white space, optional sign, digits. -/
theorem deref_err_eq_NUL_iff (v : GString) (errno : Int) :
    deref (g_ascii_strtoll v errno).err = NUL ↔
      (c_str v = [] ∨ strtoll_number (c_str v) = true) := by
  rw [deref_eq_NUL_iff, ← g_ascii_strtoll_err_nil (c_str v) errno, g_ascii_strtoll_c_str]

/-- The value converted from a text is the value converted from its C string. -/
theorem g_ascii_strtoll_r_c_str (v : GString) (errno : Int) :
    (g_ascii_strtoll v errno).r = (g_ascii_strtoll (c_str v) errno).r := by
  rw [g_ascii_strtoll_c_str]

/-! ## Passing the first checks -/

/-- With a set version the version check passes and writes at most `keep_alive`. -/
theorem check_version_ok (s : St) (hv : s.con.mainvr.request.http_version ≠ .UNSET) :
    ∃ b : Bool, check_version s = .ok { s with con := { s.con with keep_alive := b } } := by
  unfold check_version
  split
  · rename_i h
    exact absurd h hv
  · split
    · exact ⟨s.con.keep_alive, rfl⟩
    · exact ⟨false, rfl⟩
  · split
    · exact ⟨false, rfl⟩
    · exact ⟨s.con.keep_alive, rfl⟩

/-- With a set version and a non-empty request-target the call is the chain from the Host
check on, run on the connection with its persistence default. -/
theorem validate_from_host (ext : Externals) (errno : Int) (con : liConnection)
    (hv : con.mainvr.request.http_version ≠ .UNSET) (hraw : con.mainvr.request.uri.raw ≠ []) :
    ∃ b : Bool, check_version ⟨con, errno⟩ = .ok ⟨{ con with keep_alive := b }, errno⟩ ∧
      check_target ⟨{ con with keep_alive := b }, errno⟩
        = .ok ⟨{ con with keep_alive := b }, errno⟩ ∧
      li_request_validate_header ext errno con
        = finish (chain_from_host ext ⟨{ con with keep_alive := b }, errno⟩) := by
  obtain ⟨b, hb⟩ := check_version_ok ⟨con, errno⟩ hv
  have ht : check_target ⟨{ con with keep_alive := b }, errno⟩
      = .ok ⟨{ con with keep_alive := b }, errno⟩ := by
    simp only [check_target]
    rw [if_neg hraw]
  refine ⟨b, hb, ht, ?_⟩
  rw [validate_eq_chain, validate_chain_nested, hb, ok_bind]
  simp only [chain_from_target]
  rw [ht, ok_bind]

/-- The parser on the text of the signed 64-bit maximum: the maximum itself, everything
consumed, `errno` untouched. -/
theorem g_ascii_strtoll_int64_max (errno : Int) :
    g_ascii_strtoll "9223372036854775807".toList errno = ⟨G_MAXINT64, [], errno⟩ := by
  rw [g_ascii_strtoll_digits _ (by decide) (by decide) errno]
  have h : decimal_value "9223372036854775807".toList = 9223372036854775807 := by decide
  rw [h]
  rfl

/-- The Expect check leaves the content length alone. -/
theorem check_expect_content_length (s : St) :
    (final_state (check_expect s)).con.mainvr.request.content_length
      = s.con.mainvr.request.content_length := by
  unfold check_expect
  simp only []
  split
  · rfl
  · split
    · rfl
    · split <;> rfl

/-- When the checks before the method check pass, the call is the method check. -/
theorem validate_from_method (ext : Externals) (errno : Int) (con : liConnection) (s6 : St)
    (hpre : checks_before_method ext ⟨con, errno⟩ = .ok s6) :
    li_request_validate_header ext errno con = finish (check_method s6) ∧
    s6.con.mainvr.request.http_method = con.mainvr.request.http_method := by
  constructor
  · rw [validate_eq_chain]
    simp only [validate_chain, hpre, ok_bind]
  · have h := checks_before_method_frame ext ⟨con, errno⟩
    rw [hpre] at h
    exact h.2.1

/-- A call that returns `TRUE` passed the checks before the method check in some state,
and the method check turned that state into the final one. -/
theorem validate_true_inv (ext : Externals) (errno : Int) (con : liConnection)
    (hret : (li_request_validate_header ext errno con).ret = true) :
    ∃ s6 t : St, checks_before_method ext ⟨con, errno⟩ = .ok s6 ∧ check_method s6 = .ok t ∧
      li_request_validate_header ext errno con = ⟨true, t.con, t.errno⟩ := by
  rcases hpre : checks_before_method ext ⟨con, errno⟩ with ⟨st, u⟩ | s6
  · rw [validate_eq_chain] at hret
    simp only [validate_chain, hpre, error_bind, finish] at hret
    exact absurd hret (by simp)
  · obtain ⟨hval, -⟩ := validate_from_method ext errno con s6 hpre
    rw [hval] at hret ⊢
    rcases hm : check_method s6 with ⟨st, u⟩ | t
    · rw [hm] at hret
      simp [finish] at hret
    · exact ⟨s6, t, rfl, hm, rfl⟩

/-! ## The claims -/

/-- C1: `li_request_validate_header` is the short-circuiting chain of the seven checks in
the order version, request-target, Host, URI, Content-Length, Expect, method/body: its
result is the rejection of the first check that fails, on the state that check saw, and
`TRUE` when none fails.  The checks reject with 505, 400, 400, 400, 400 or 413, 417, and
400 or 411.  A request with an invalid Content-Length and an unsupported Expect value is
rejected with 400, and a POST without Content-Length and with `Expect: gzip` with 417. -/
theorem C1_validate_header_is_short_circuit_chain :
    (∀ (ext : Externals) (errno : Int) (con : liConnection),
      li_request_validate_header ext errno con = finish
        (check_version ⟨con, errno⟩ >>= check_target >>= check_host ext >>= check_uri ext
          >>= check_content_length >>= check_expect >>= check_method)) ∧
    (∀ (ext : Externals) (s : St),
      rejects_with [505] (check_version s) ∧ rejects_with [400] (check_target s) ∧
      rejects_with [400] (check_host ext s) ∧ rejects_with [400] (check_uri ext s) ∧
      rejects_with [400, 413] (check_content_length s) ∧
      rejects_with [417] (check_expect s) ∧ rejects_with [400, 411] (check_method s)) ∧
    ((li_request_validate_header sampleExt 0 (mkCon .GET .V1_1 "/".toList
        [hostA, hdr "Content-Length" "abc", hdr "Expect" "gzip"])).ret = false ∧
      (li_request_validate_header sampleExt 0 (mkCon .GET .V1_1 "/".toList
        [hostA, hdr "Content-Length" "abc", hdr "Expect" "gzip"])
        ).con.mainvr.response_http_status = 400) ∧
    ((li_request_validate_header sampleExt 0 (mkCon .POST .V1_1 "/".toList
        [hostA, hdr "Expect" "gzip"])).ret = false ∧
      (li_request_validate_header sampleExt 0 (mkCon .POST .V1_1 "/".toList
        [hostA, hdr "Expect" "gzip"])).con.mainvr.response_http_status = 417) := by
  refine ⟨fun ext errno con => validate_eq_chain ext errno con, fun ext s => ?_, ?_, ?_⟩
  · exact ⟨check_version_status s, check_target_status s, check_host_status ext s,
      check_uri_status ext s, check_content_length_status s, check_expect_status s,
      check_method_status s⟩
  · decide
  · decide

/-- C2: with `http_version` unset the call returns `FALSE` with status 505 and
`keep_alive` off; the request, `expect_100_cont` and `errno` are as before, the
dispatcher is invoked once, and the result does not depend on the external parsers. -/
theorem C2_unset_version_rejected_505 (ext : Externals) (errno : Int) (con : liConnection)
    (h : con.mainvr.request.http_version = .UNSET) :
    (li_request_validate_header ext errno con).ret = false ∧
    (li_request_validate_header ext errno con).con.mainvr.response_http_status = 505 ∧
    (li_request_validate_header ext errno con).con.keep_alive = false ∧
    (li_request_validate_header ext errno con).con.mainvr.request = con.mainvr.request ∧
    (li_request_validate_header ext errno con).con.expect_100_cont = con.expect_100_cont ∧
    (li_request_validate_header ext errno con).con.mainvr.handle_direct_calls
      = con.mainvr.handle_direct_calls + 1 ∧
    (li_request_validate_header ext errno con).errno = errno ∧
    (∀ ext2 : Externals,
      li_request_validate_header ext2 errno con = li_request_validate_header ext errno con) := by
  have key : ∀ e : Externals,
      li_request_validate_header e errno con = ⟨false, bad_request con 505, errno⟩ := by
    intro e
    rw [validate_eq_chain, validate_chain_nested]
    simp [check_version, h, finish_error, error_bind]
  rw [key ext]
  refine ⟨rfl, rfl, rfl, rfl, rfl, rfl, rfl, fun e => key e⟩

theorem C2_unset_version_rejected_505_witness :
    (mkCon .GET .UNSET "/index.html".toList [hostA, hdr "Content-Length" "abc"]
      ).mainvr.request.http_version = .UNSET ∧
    (li_request_validate_header sampleExt 0
      (mkCon .GET .UNSET "/index.html".toList [hostA, hdr "Content-Length" "abc"])
      ).con.mainvr.response_http_status = 505 :=
  ⟨rfl, (C2_unset_version_rejected_505 sampleExt 0
    (mkCon .GET .UNSET "/index.html".toList [hostA, hdr "Content-Length" "abc"]) rfl).2.1⟩

/-- C3: the call returns `FALSE` exactly when `bad_request` fired, and it fires at most
once: either the call returns `FALSE` and the dispatcher count went up by one, or it
returns `TRUE` and the count is unchanged.  On `FALSE`, `keep_alive` is off and the status
is one of 400, 411, 413, 417, 505; on `TRUE` the status is the one before the call and
the dispatcher was not invoked. -/
theorem C3_false_iff_single_rejection (ext : Externals) (errno : Int) (con : liConnection) :
    (((li_request_validate_header ext errno con).ret = false ∧
        (li_request_validate_header ext errno con).con.mainvr.handle_direct_calls
          = con.mainvr.handle_direct_calls + 1) ∨
      ((li_request_validate_header ext errno con).ret = true ∧
        (li_request_validate_header ext errno con).con.mainvr.handle_direct_calls
          = con.mainvr.handle_direct_calls)) ∧
    ((li_request_validate_header ext errno con).ret = false →
      (li_request_validate_header ext errno con).con.keep_alive = false ∧
      (li_request_validate_header ext errno con).con.mainvr.response_http_status
        ∈ [400, 411, 413, 417, 505]) ∧
    ((li_request_validate_header ext errno con).ret = true →
      (li_request_validate_header ext errno con).con.mainvr.response_http_status
        = con.mainvr.response_http_status ∧
      (li_request_validate_header ext errno con).con.mainvr.handle_direct_calls
        = con.mainvr.handle_direct_calls) := by
  rw [validate_eq_chain]
  have hf := validate_chain_frame ext ⟨con, errno⟩
  have hs := validate_chain_status ext ⟨con, errno⟩
  rcases hr : validate_chain ext ⟨con, errno⟩ with ⟨st, t⟩ | t
  · rw [hr] at hf hs
    obtain ⟨-, -, -, -, -, h6⟩ := hf
    simp only [final_state] at h6
    refine ⟨Or.inl ⟨rfl, ?_⟩, fun _ => ⟨rfl, hs⟩, fun h => ?_⟩
    · simp [finish, bad_request, li_vrequest_handle_direct, h6]
    · simp [finish] at h
  · rw [hr] at hf
    obtain ⟨-, -, -, -, h5, h6⟩ := hf
    simp only [final_state] at h5 h6
    refine ⟨Or.inr ⟨rfl, h6⟩, fun h => ?_, fun _ => ⟨h5, h6⟩⟩
    simp [finish] at h

theorem C3_false_iff_single_rejection_witness :
    (li_request_validate_header sampleExt 0
      (mkCon .POST .V1_1 "/".toList [hostA])).ret = false ∧
    (li_request_validate_header sampleExt 0
      (mkCon .POST .V1_1 "/".toList [hostA])).con.keep_alive = false ∧
    (li_request_validate_header sampleExt 0
      (mkCon .POST .V1_1 "/".toList [hostA])).con.mainvr.response_http_status
        ∈ [400, 411, 413, 417, 505] :=
  ⟨by decide, (C3_false_iff_single_rejection sampleExt 0
    (mkCon .POST .V1_1 "/".toList [hostA])).2.1 (by decide)⟩

/-- C4: an HTTP/1.0 or HTTP/1.1 request with two Host headers is rejected with status 400
whatever else it carries; the request (its URI included) is left as it was, so neither
the hostname parser nor the URI canonicalizer was invoked, and the result does not depend
on them. -/
theorem C4_duplicate_host_rejected_400 (ext : Externals) (errno : Int) (con : liConnection)
    (hv : con.mainvr.request.http_version = .V1_0 ∨ con.mainvr.request.http_version = .V1_1)
    (h2 : li_http_header_find_next
      (li_http_header_find_first con.mainvr.request.headers "host".toList) "host".toList ≠ []) :
    (li_request_validate_header ext errno con).ret = false ∧
    (li_request_validate_header ext errno con).con.mainvr.response_http_status = 400 ∧
    (li_request_validate_header ext errno con).con.mainvr.request = con.mainvr.request ∧
    (∀ ext2 : Externals,
      li_request_validate_header ext2 errno con = li_request_validate_header ext errno con) := by
  have hv2 : con.mainvr.request.http_version ≠ .UNSET := by
    rcases hv with h | h <;> simp [h]
  rcases h1 : li_http_header_find_first con.mainvr.request.headers "host".toList with _ | ⟨hh, t⟩
  · rw [h1] at h2
    exact absurd rfl h2
  · rw [h1] at h2
    have key := fun e => duplicate_host_outcome e errno con hv2 hh t h1 h2
    rw [key ext]
    exact ⟨rfl, rfl, rfl, fun e => key e⟩

theorem C4_duplicate_host_rejected_400_witness :
    (li_request_validate_header sampleExt 0
      (mkCon .GET .V1_1 "/".toList [hostA, hdr "Expect" "gzip", hdr "HOST" "b"])).ret = false ∧
    (li_request_validate_header sampleExt 0
      (mkCon .GET .V1_1 "/".toList [hostA, hdr "Expect" "gzip", hdr "HOST" "b"])
      ).con.mainvr.response_http_status = 400 :=
  ⟨(C4_duplicate_host_rejected_400 sampleExt 0
      (mkCon .GET .V1_1 "/".toList [hostA, hdr "Expect" "gzip", hdr "HOST" "b"])
      (Or.inr rfl) (by decide)).1,
   (C4_duplicate_host_rejected_400 sampleExt 0
      (mkCon .GET .V1_1 "/".toList [hostA, hdr "Expect" "gzip", hdr "HOST" "b"])
      (Or.inr rfl) (by decide)).2.1⟩

/-- C5: Host is mandatory only for HTTP/1.1.  For a request with a non-empty
request-target and an empty `uri.host` at entry: an HTTP/1.1 request without Host header,
or whose Host header leaves `uri.host` empty after parsing, is rejected with 400; a Host
header on which the hostname parser fails is rejected with 400 on either version; an
HTTP/1.0 request without Host header passes the Host check unchanged and validation
goes on with the URI canonicalization. -/
theorem C5_host_mandatory_only_for_http11 (ext : Externals) (errno : Int)
    (con : liConnection) (hraw : con.mainvr.request.uri.raw ≠ [])
    (hhost : con.mainvr.request.uri.host = []) :
    (con.mainvr.request.http_version = .V1_1 →
      li_http_header_find_first con.mainvr.request.headers "host".toList = [] →
      (li_request_validate_header ext errno con).ret = false ∧
      (li_request_validate_header ext errno con).con.mainvr.response_http_status = 400) ∧
    (∀ (hh : liHttpHeader) (t : liHttpHeaders),
      con.mainvr.request.http_version = .V1_1 →
      li_http_header_find_first con.mainvr.request.headers "host".toList = hh :: t →
      (ext.li_parse_hostname { con.mainvr.request.uri with
        authority := con.mainvr.request.uri.authority ++ hh.value }).2.host = [] →
      (li_request_validate_header ext errno con).ret = false ∧
      (li_request_validate_header ext errno con).con.mainvr.response_http_status = 400) ∧
    (∀ (hh : liHttpHeader) (t : liHttpHeaders),
      con.mainvr.request.http_version ≠ .UNSET →
      li_http_header_find_first con.mainvr.request.headers "host".toList = hh :: t →
      (ext.li_parse_hostname { con.mainvr.request.uri with
        authority := con.mainvr.request.uri.authority ++ hh.value }).1 = false →
      (li_request_validate_header ext errno con).ret = false ∧
      (li_request_validate_header ext errno con).con.mainvr.response_http_status = 400) ∧
    (con.mainvr.request.http_version = .V1_0 →
      li_http_header_find_first con.mainvr.request.headers "host".toList = [] →
      ∃ b : Bool,
        check_host ext ⟨{ con with keep_alive := b }, errno⟩
          = .ok ⟨{ con with keep_alive := b }, errno⟩ ∧
        li_request_validate_header ext errno con
          = finish (check_uri ext ⟨{ con with keep_alive := b }, errno⟩
              >>= check_content_length >>= check_expect >>= check_method)) := by
  refine ⟨fun hv hl => ?_, fun hh t hv hl hp => ?_, fun hh t hv hl hp => ?_, fun hv hl => ?_⟩
  · obtain ⟨b, -, -, hb⟩ := validate_from_host ext errno con (by simp [hv]) hraw
    rw [hb]
    simp only [chain_from_host, check_host, hl, hhost, hv, and_self, ↓reduceIte]
    exact ⟨rfl, rfl⟩
  · obtain ⟨b, -, -, hb⟩ := validate_from_host ext errno con (by simp [hv]) hraw
    rw [hb]
    simp only [chain_from_host, check_host, hl, hp, hv, and_self, ↓reduceIte]
    split
    · exact ⟨rfl, rfl⟩
    · split <;> exact ⟨rfl, rfl⟩
  · obtain ⟨b, -, -, hb⟩ := validate_from_host ext errno con hv hraw
    rw [hb]
    simp only [chain_from_host, check_host, hl, hp, ↓reduceIte]
    split <;> exact ⟨rfl, rfl⟩
  · obtain ⟨b, -, -, hb⟩ := validate_from_host ext errno con (by simp [hv]) hraw
    have hc : check_host ext ⟨{ con with keep_alive := b }, errno⟩
        = .ok ⟨{ con with keep_alive := b }, errno⟩ := by
      simp only [check_host, hl, hv, reduceCtorEq, and_false, ↓reduceIte]
    refine ⟨b, hc, ?_⟩
    rw [hb]
    simp only [chain_from_host, hc, ok_bind, chain_from_uri, chain_from_content_length,
      chain_from_expect, bind_assoc]
    rfl

theorem C5_host_mandatory_only_for_http11_witness :
    ((li_request_validate_header sampleExt 0 (mkCon .GET .V1_1 "/".toList [])).ret = false ∧
      (li_request_validate_header sampleExt 0
        (mkCon .GET .V1_1 "/".toList [])).con.mainvr.response_http_status = 400) ∧
    (∃ b : Bool, li_request_validate_header sampleExt 0 (mkCon .GET .V1_0 "/".toList [])
        = finish (check_uri sampleExt ⟨{ mkCon .GET .V1_0 "/".toList [] with keep_alive := b }, 0⟩
            >>= check_content_length >>= check_expect >>= check_method)) :=
  ⟨(C5_host_mandatory_only_for_http11 sampleExt 0 (mkCon .GET .V1_1 "/".toList [])
      (by decide) rfl).1 rfl rfl,
   ((C5_host_mandatory_only_for_http11 sampleExt 0 (mkCon .GET .V1_0 "/".toList [])
      (by decide) rfl).2.2.2 rfl rfl).imp fun _ h => h.2⟩

/-- C6: for a request that passes the version, request-target, Host and URI checks and
whose Content-Length value, read as the C string it is, is not empty and is not white
space, optional sign and digits to its end (as in `abc` and `12abc`, where a character
that is not a digit follows the numeric prefix), or is `-` followed by digits that denote
a positive number, white space before the sign allowed (as in `-1`): the call returns `FALSE` with status 400 and the content
length of the request is the one it had at entry. -/
theorem C6_malformed_or_negative_content_length_400 (ext : Externals) (errno : Int)
    (con : liConnection) (s4 : St) (hh : liHttpHeader)
    (hpre : checks_before_content_length ext ⟨con, errno⟩ = .ok s4)
    (hcl : li_http_header_lookup con.mainvr.request.headers "content-length".toList = some hh)
    (hbad : (c_str hh.value ≠ [] ∧ strtoll_number (c_str hh.value) = false) ∨
      (∃ ws ds : List Char, c_str hh.value = ws ++ '-' :: ds ∧ (∀ c ∈ ws, ISSPACE c = true) ∧
        ds ≠ [] ∧ (∀ c ∈ ds, is_digit c) ∧ 0 < decimal_value ds)) :
    (li_request_validate_header ext errno con).ret = false ∧
    (li_request_validate_header ext errno con).con.mainvr.response_http_status = 400 ∧
    (li_request_validate_header ext errno con).con.mainvr.request.content_length
      = con.mainvr.request.content_length := by
  obtain ⟨hval, ⟨hhd, -, -, -, -, -⟩, herr, hlen, -⟩ :=
    validate_from_content_length ext errno con s4 hpre
  simp only at hhd herr hlen
  rw [hval]
  simp only [chain_from_content_length, check_content_length, hhd, hcl, herr]
  by_cases h1 : deref (g_ascii_strtoll hh.value errno).err ≠ NUL
  · rw [if_pos h1]
    exact ⟨rfl, rfl, hlen⟩
  · have hnul : deref (g_ascii_strtoll hh.value errno).err = NUL := by
      by_contra h
      exact h1 h
    have h2 : (g_ascii_strtoll hh.value errno).r < 0 := by
      rcases hbad with ⟨hne, hform⟩ | ⟨ws, ds, hv, hws, hds, hd, hpos⟩
      · rcases (deref_err_eq_NUL_iff hh.value errno).mp hnul with h | h
        · exact absurd h hne
        · rw [hform] at h
          exact absurd h (by decide)
      · rw [g_ascii_strtoll_r_c_str, hv, g_ascii_strtoll_r_skip ws _ hws,
          g_ascii_strtoll_neg_digits ds hds hd errno]
        have hmin : G_MININT64 < 0 := by decide
        split
        · exact hmin
        · show -(decimal_value ds : Int) < 0
          omega
    rw [if_neg h1, if_pos h2]
    exact ⟨rfl, rfl, hlen⟩

theorem C6_malformed_or_negative_content_length_400_witness :
    ((li_request_validate_header sampleExt 0 (mkCon .PUT .V1_1 "/".toList
        [hostA, hdr "Content-Length" "12abc"])).ret = false ∧
      (li_request_validate_header sampleExt 0 (mkCon .PUT .V1_1 "/".toList
        [hostA, hdr "Content-Length" "12abc"])).con.mainvr.response_http_status = 400 ∧
      (li_request_validate_header sampleExt 0 (mkCon .PUT .V1_1 "/".toList
        [hostA, hdr "Content-Length" "12abc"])).con.mainvr.request.content_length = -1) ∧
    (li_request_validate_header sampleExt 0 (mkCon .PUT .V1_1 "/".toList
        [hostA, hdr "Content-Length" "abc"])).con.mainvr.response_http_status = 400 ∧
    (li_request_validate_header sampleExt 0 (mkCon .PUT .V1_1 "/".toList
        [hostA, hdr "Content-Length" "-1"])).con.mainvr.response_http_status = 400 :=
  ⟨C6_malformed_or_negative_content_length_400 sampleExt 0
      (mkCon .PUT .V1_1 "/".toList [hostA, hdr "Content-Length" "12abc"])
      (final_state (checks_before_content_length sampleExt
        ⟨mkCon .PUT .V1_1 "/".toList [hostA, hdr "Content-Length" "12abc"], 0⟩))
      (hdr "Content-Length" "12abc") rfl rfl (Or.inl ⟨by decide, by decide⟩),
   (C6_malformed_or_negative_content_length_400 sampleExt 0
      (mkCon .PUT .V1_1 "/".toList [hostA, hdr "Content-Length" "abc"])
      (final_state (checks_before_content_length sampleExt
        ⟨mkCon .PUT .V1_1 "/".toList [hostA, hdr "Content-Length" "abc"], 0⟩))
      (hdr "Content-Length" "abc") rfl rfl (Or.inl ⟨by decide, by decide⟩)).2.1,
   (C6_malformed_or_negative_content_length_400 sampleExt 0
      (mkCon .PUT .V1_1 "/".toList [hostA, hdr "Content-Length" "-1"])
      (final_state (checks_before_content_length sampleExt
        ⟨mkCon .PUT .V1_1 "/".toList [hostA, hdr "Content-Length" "-1"], 0⟩))
      (hdr "Content-Length" "-1") rfl rfl
      (Or.inr ⟨[], "1".toList, by decide, by decide, by decide, by decide, by decide⟩)).2.1⟩

/-- C7: for a request that passes the version, request-target, Host and URI checks and
whose Content-Length value is a string of decimal digits `ds`, or `-` followed by one:
digits denoting more than 2^63-1 are rejected with status 413, and `-` followed by
digits denoting more than 2^63 is rejected with status 400; in both cases the content
length of the request is the one it had at entry. -/
theorem C7_content_length_overflow (ext : Externals) (errno : Int) (con : liConnection)
    (s4 : St) (hh : liHttpHeader) (ds : List Char)
    (hpre : checks_before_content_length ext ⟨con, errno⟩ = .ok s4)
    (hcl : li_http_header_lookup con.mainvr.request.headers "content-length".toList = some hh)
    (hne : ds ≠ []) (hd : ∀ c ∈ ds, is_digit c) :
    (hh.value = ds → 2 ^ 63 - 1 < decimal_value ds →
      (li_request_validate_header ext errno con).ret = false ∧
      (li_request_validate_header ext errno con).con.mainvr.response_http_status = 413 ∧
      (li_request_validate_header ext errno con).con.mainvr.request.content_length
        = con.mainvr.request.content_length) ∧
    (hh.value = '-' :: ds → 2 ^ 63 < decimal_value ds →
      (li_request_validate_header ext errno con).ret = false ∧
      (li_request_validate_header ext errno con).con.mainvr.response_http_status = 400 ∧
      (li_request_validate_header ext errno con).con.mainvr.request.content_length
        = con.mainvr.request.content_length) := by
  obtain ⟨hval, ⟨hhd, -, -, -, -, -⟩, herr, hlen, -⟩ :=
    validate_from_content_length ext errno con s4 hpre
  simp only at hhd herr hlen
  rw [hval]
  simp only [chain_from_content_length, check_content_length, hhd, hcl, herr]
  constructor
  · intro hv hbig
    have hbig2 : (decimal_value ds : Int) > G_MAXINT64 := by
      simp only [G_MAXINT64]
      omega
    rw [hv, g_ascii_strtoll_digits ds hne hd errno, if_pos hbig2]
    simp only [ne_eq, not_true_eq_false, ↓reduceIte, or_true, and_self]
    have hpos : ¬ G_MAXINT64 < 0 := by decide
    rw [if_neg hpos]
    exact ⟨rfl, rfl, hlen⟩
  · intro hv hbig
    have hbig2 : (decimal_value ds : Int) > -G_MININT64 := by
      simp only [G_MININT64]
      omega
    rw [hv, g_ascii_strtoll_neg_digits ds hne hd errno, if_pos hbig2]
    simp only [ne_eq, not_true_eq_false, ↓reduceIte]
    have hneg : G_MININT64 < 0 := by decide
    rw [if_pos hneg]
    exact ⟨rfl, rfl, hlen⟩

theorem C7_content_length_overflow_witness :
    ((li_request_validate_header sampleExt 0 (mkCon .PUT .V1_1 "/".toList
        [hostA, hdr "Content-Length" "9223372036854775808"])).ret = false ∧
      (li_request_validate_header sampleExt 0 (mkCon .PUT .V1_1 "/".toList
        [hostA, hdr "Content-Length" "9223372036854775808"])
        ).con.mainvr.response_http_status = 413 ∧
      (li_request_validate_header sampleExt 0 (mkCon .PUT .V1_1 "/".toList
        [hostA, hdr "Content-Length" "9223372036854775808"])
        ).con.mainvr.request.content_length = -1) ∧
    ((li_request_validate_header sampleExt 0 (mkCon .PUT .V1_1 "/".toList
        [hostA, hdr "Content-Length" "-9223372036854775809"])).ret = false ∧
      (li_request_validate_header sampleExt 0 (mkCon .PUT .V1_1 "/".toList
        [hostA, hdr "Content-Length" "-9223372036854775809"])
        ).con.mainvr.response_http_status = 400 ∧
      (li_request_validate_header sampleExt 0 (mkCon .PUT .V1_1 "/".toList
        [hostA, hdr "Content-Length" "-9223372036854775809"])
        ).con.mainvr.request.content_length = -1) :=
  ⟨(C7_content_length_overflow sampleExt 0
      (mkCon .PUT .V1_1 "/".toList [hostA, hdr "Content-Length" "9223372036854775808"])
      (final_state (checks_before_content_length sampleExt
        ⟨mkCon .PUT .V1_1 "/".toList [hostA, hdr "Content-Length" "9223372036854775808"], 0⟩))
      (hdr "Content-Length" "9223372036854775808") "9223372036854775808".toList
      rfl rfl (by decide) (by decide)).1 rfl (by decide),
   (C7_content_length_overflow sampleExt 0
      (mkCon .PUT .V1_1 "/".toList [hostA, hdr "Content-Length" "-9223372036854775809"])
      (final_state (checks_before_content_length sampleExt
        ⟨mkCon .PUT .V1_1 "/".toList [hostA, hdr "Content-Length" "-9223372036854775809"], 0⟩))
      (hdr "Content-Length" "-9223372036854775809") "9223372036854775809".toList
      rfl rfl (by decide) (by decide)).2 rfl (by decide)⟩

/-- C8, counterexample: the request `conInt64Max` passes the checks before the
Content-Length check, its Content-Length value is exactly `9223372036854775807`, and with
`errno` 0 the call returns `TRUE` with that content length instead of rejecting with 413. -/
theorem C8_int64_max_not_rejected_counterexample :
    checks_before_content_length sampleExt ⟨conInt64Max, 0⟩
      = .ok (final_state (checks_before_content_length sampleExt ⟨conInt64Max, 0⟩)) ∧
    li_http_header_lookup conInt64Max.mainvr.request.headers "content-length".toList
      = some (hdr "Content-Length" "9223372036854775807") ∧
    (li_request_validate_header sampleExt 0 conInt64Max).ret = true ∧
    (li_request_validate_header sampleExt 0 conInt64Max).con.mainvr.request.content_length
      = 9223372036854775807 ∧
    ¬ ((li_request_validate_header sampleExt 0 conInt64Max).ret = false ∧
      (li_request_validate_header sampleExt 0 conInt64Max).con.mainvr.response_http_status
        = 413) := by
  refine ⟨rfl, rfl, ?_, ?_, ?_⟩ <;> decide

/-- C8, amended: for a request that passes the version, request-target, Host and URI
checks and whose Content-Length value is exactly `9223372036854775807`, validated with an
`errno` other than `ERANGE`: the parse reports no range error, the Content-Length check
passes and stores 9223372036854775807 as content length, and the call is decided by the
Expect and method checks, so that a rejection carries 417, 400 or 411. -/
theorem C8_int64_max_content_length_is_stored (ext : Externals) (errno : Int)
    (con : liConnection) (s4 : St) (hh : liHttpHeader)
    (hpre : checks_before_content_length ext ⟨con, errno⟩ = .ok s4)
    (hcl : li_http_header_lookup con.mainvr.request.headers "content-length".toList = some hh)
    (hv : hh.value = "9223372036854775807".toList) (herrno : errno ≠ ERANGE) :
    check_content_length s4 = .ok ⟨set_content_length s4.con 9223372036854775807, errno⟩ ∧
    li_request_validate_header ext errno con
      = finish (check_expect ⟨set_content_length s4.con 9223372036854775807, errno⟩
          >>= check_method) ∧
    ((li_request_validate_header ext errno con).ret = false →
      (li_request_validate_header ext errno con).con.mainvr.response_http_status
        ∈ [417, 400, 411]) := by
  obtain ⟨hval, ⟨hhd, -, -, -, -, -⟩, herr, -, -⟩ :=
    validate_from_content_length ext errno con s4 hpre
  simp only at hhd herr
  have hpass : check_content_length s4
      = .ok ⟨set_content_length s4.con 9223372036854775807, errno⟩ := by
    simp only [check_content_length, hhd, hcl, herr, hv, g_ascii_strtoll_int64_max, ne_eq,
      not_true_eq_false, ↓reduceIte, herrno, and_false]
    have hpos : ¬ G_MAXINT64 < 0 := by decide
    rw [if_neg hpos]
    rfl
  have hrun : li_request_validate_header ext errno con
      = finish (check_expect ⟨set_content_length s4.con 9223372036854775807, errno⟩
          >>= check_method) := by
    rw [hval]
    simp only [chain_from_content_length, hpass, ok_bind]
    rfl
  refine ⟨hpass, hrun, fun hret => ?_⟩
  rw [hrun] at hret ⊢
  have hs : rejects_with [417, 400, 411]
      (check_expect ⟨set_content_length s4.con 9223372036854775807, errno⟩ >>= check_method) :=
    rejects_with_bind _ _ (rejects_with_mono (by simp) (check_expect_status _))
      (fun t => rejects_with_mono (by simp) (check_method_status t))
  rcases hr : (check_expect ⟨set_content_length s4.con 9223372036854775807, errno⟩
      >>= check_method) with ⟨st, t⟩ | t
  · rw [hr] at hs
    exact hs
  · rw [hr] at hret
    simp [finish] at hret

theorem C8_int64_max_content_length_is_stored_witness :
    li_request_validate_header sampleExt 0 conInt64Max
      = finish (check_expect ⟨set_content_length
          (final_state (checks_before_content_length sampleExt ⟨conInt64Max, 0⟩)).con
          9223372036854775807, 0⟩ >>= check_method) :=
  (C8_int64_max_content_length_is_stored sampleExt 0 conInt64Max
    (final_state (checks_before_content_length sampleExt ⟨conInt64Max, 0⟩))
    (hdr "Content-Length" "9223372036854775807") rfl rfl rfl (by decide)).2.1

/-- C9: for a GET or HEAD request that passes the version, request-target, Host and URI
checks, whose Content-Length check leaves the state `s5` and whose Expect check passes:
a content length greater than zero in `s5` is rejected with status 400; otherwise the call
returns `TRUE` and the content length is 0 afterwards.  Hence every GET or HEAD request on
which the call returns `TRUE` has content length 0 afterwards. -/
theorem C9_get_head_content_length (ext : Externals) (errno : Int) (con : liConnection)
    (hm : con.mainvr.request.http_method = .GET ∨ con.mainvr.request.http_method = .HEAD) :
    (∀ s4 s5 s6 : St, checks_before_content_length ext ⟨con, errno⟩ = .ok s4 →
      check_content_length s4 = .ok s5 → check_expect s5 = .ok s6 →
      (0 < s5.con.mainvr.request.content_length →
        (li_request_validate_header ext errno con).ret = false ∧
        (li_request_validate_header ext errno con).con.mainvr.response_http_status = 400) ∧
      (s5.con.mainvr.request.content_length ≤ 0 →
        (li_request_validate_header ext errno con).ret = true ∧
        (li_request_validate_header ext errno con).con.mainvr.request.content_length = 0)) ∧
    ((li_request_validate_header ext errno con).ret = true →
      (li_request_validate_header ext errno con).con.mainvr.request.content_length = 0) := by
  have hmeth : ∀ s6 : St, s6.con.mainvr.request.http_method = con.mainvr.request.http_method →
      (s6.con.mainvr.request.http_method = .GET ∨ s6.con.mainvr.request.http_method = .HEAD) :=
    fun s6 h => by rw [h]; exact hm
  constructor
  · intro s4 s5 s6 h4 h5 h6
    have hpre : checks_before_method ext ⟨con, errno⟩ = .ok s6 := by
      simp only [checks_before_method, h4, ok_bind, h5, h6]
    obtain ⟨hval, hmm⟩ := validate_from_method ext errno con s6 hpre
    have hlen : s6.con.mainvr.request.content_length
        = s5.con.mainvr.request.content_length := by
      have := check_expect_content_length s5
      rw [h6] at this
      exact this
    rw [hval]
    simp only [check_method, if_pos (hmeth s6 hmm), hlen]
    constructor
    · intro hpos
      rw [if_pos hpos]
      exact ⟨rfl, rfl⟩
    · intro hle
      rw [if_neg (by omega)]
      exact ⟨rfl, rfl⟩
  · intro hret
    obtain ⟨s6, t, hpre, hcm, hout⟩ := validate_true_inv ext errno con hret
    obtain ⟨-, hmm⟩ := validate_from_method ext errno con s6 hpre
    rw [hout]
    simp only [check_method, if_pos (hmeth s6 hmm)] at hcm
    split at hcm
    · exact absurd hcm (by simp)
    · simp only [Except.ok.injEq] at hcm
      rw [← hcm]
      rfl

theorem C9_get_head_content_length_witness :
    ((li_request_validate_header sampleExt 0
        (mkCon .GET .V1_1 "/".toList [hostA, hdr "Content-Length" "5"])).ret = false ∧
      (li_request_validate_header sampleExt 0
        (mkCon .GET .V1_1 "/".toList [hostA, hdr "Content-Length" "5"])
        ).con.mainvr.response_http_status = 400) ∧
    (li_request_validate_header sampleExt 0
        (mkCon .HEAD .V1_1 "/".toList [hostA])).con.mainvr.request.content_length = 0 :=
  ⟨((C9_get_head_content_length sampleExt 0
      (mkCon .GET .V1_1 "/".toList [hostA, hdr "Content-Length" "5"]) (Or.inl rfl)).1
      (final_state (checks_before_content_length sampleExt
        ⟨mkCon .GET .V1_1 "/".toList [hostA, hdr "Content-Length" "5"], 0⟩))
      (final_state (checks_before_content_length sampleExt
        ⟨mkCon .GET .V1_1 "/".toList [hostA, hdr "Content-Length" "5"], 0⟩
          >>= check_content_length))
      (final_state (checks_before_method sampleExt
        ⟨mkCon .GET .V1_1 "/".toList [hostA, hdr "Content-Length" "5"], 0⟩))
      rfl rfl rfl).1 (by decide),
   (C9_get_head_content_length sampleExt 0
      (mkCon .HEAD .V1_1 "/".toList [hostA]) (Or.inr rfl)).2 (by decide)⟩

/-- C10: for a POST request whose content length is `-1` at entry, that passes the
version, request-target, Host and URI checks and whose Content-Length and Expect checks
pass: without Content-Length header the call returns `FALSE` with status 411; with
`Content-Length: 0` it returns `TRUE` with content length 0.  And every POST request on
which the call returns `TRUE` has a content length other than `-1` afterwards. -/
theorem C10_post_requires_content_length (ext : Externals) (errno : Int)
    (con : liConnection) (hm : con.mainvr.request.http_method = .POST) :
    (con.mainvr.request.content_length = -1 →
      ∀ s4 s5 s6 : St, checks_before_content_length ext ⟨con, errno⟩ = .ok s4 →
        check_content_length s4 = .ok s5 → check_expect s5 = .ok s6 →
        (li_http_header_lookup con.mainvr.request.headers "content-length".toList = none →
          (li_request_validate_header ext errno con).ret = false ∧
          (li_request_validate_header ext errno con).con.mainvr.response_http_status = 411) ∧
        (∀ hh : liHttpHeader,
          li_http_header_lookup con.mainvr.request.headers "content-length".toList = some hh →
          hh.value = "0".toList →
          (li_request_validate_header ext errno con).ret = true ∧
          (li_request_validate_header ext errno con).con.mainvr.request.content_length = 0)) ∧
    ((li_request_validate_header ext errno con).ret = true →
      (li_request_validate_header ext errno con).con.mainvr.request.content_length ≠ -1) := by
  have hnot : ¬ (liHttpMethod.POST = .GET ∨ liHttpMethod.POST = .HEAD) := by decide
  constructor
  · intro hneg s4 s5 s6 h4 h5 h6
    have hpre : checks_before_method ext ⟨con, errno⟩ = .ok s6 := by
      simp only [checks_before_method, h4, ok_bind, h5, h6]
    obtain ⟨hval, hmm⟩ := validate_from_method ext errno con s6 hpre
    obtain ⟨-, ⟨hhd, -, -, -, -, -⟩, herr, hlen4, -⟩ :=
      validate_from_content_length ext errno con s4 h4
    simp only at hhd herr hlen4
    have hlen6 : s6.con.mainvr.request.content_length
        = s5.con.mainvr.request.content_length := by
      have := check_expect_content_length s5
      rw [h6] at this
      exact this
    rw [hval]
    simp only [check_method, hmm, hm, if_neg hnot, ↓reduceIte, hlen6]
    constructor
    · intro hnone
      simp only [check_content_length, hhd, hnone, Except.ok.injEq] at h5
      rw [← h5, hlen4, hneg]
      exact ⟨rfl, rfl⟩
    · intro hh hsome hv
      have hz : g_ascii_strtoll "0".toList errno = ⟨0, [], errno⟩ := by
        rw [g_ascii_strtoll_digits _ (by decide) (by decide) errno]
        rfl
      simp only [check_content_length, hhd, hsome, hv, herr, hz, deref_nil, ne_eq,
        not_true_eq_false, ↓reduceIte, lt_self_iff_false] at h5
      have hmin : ¬ ((0 : Int) = G_MININT64 ∨ (0 : Int) = G_MAXINT64) := by decide
      simp only [hmin, false_and, ↓reduceIte, Except.ok.injEq] at h5
      have h0 : s5.con.mainvr.request.content_length = 0 := by
        rw [← h5]
        rfl
      rw [h0]
      have hne : ¬ ((0 : Int) = -1) := by decide
      rw [if_neg hne]
      exact ⟨rfl, by rw [finish_ok, hlen6, h0]⟩
  · intro hret
    obtain ⟨s6, t, hpre, hcm, hout⟩ := validate_true_inv ext errno con hret
    obtain ⟨-, hmm⟩ := validate_from_method ext errno con s6 hpre
    rw [hout]
    simp only [check_method, hmm, hm, if_neg hnot, ↓reduceIte] at hcm
    split at hcm
    · exact absurd hcm (by simp)
    · rename_i hne
      simp only [Except.ok.injEq] at hcm
      rw [← hcm]
      exact hne

theorem C10_post_requires_content_length_witness :
    ((li_request_validate_header sampleExt 0
        (mkCon .POST .V1_1 "/".toList [hostA])).ret = false ∧
      (li_request_validate_header sampleExt 0
        (mkCon .POST .V1_1 "/".toList [hostA])).con.mainvr.response_http_status = 411) ∧
    ((li_request_validate_header sampleExt 0
        (mkCon .POST .V1_1 "/".toList [hostA, hdr "Content-Length" "0"])).ret = true ∧
      (li_request_validate_header sampleExt 0
        (mkCon .POST .V1_1 "/".toList [hostA, hdr "Content-Length" "0"])
        ).con.mainvr.request.content_length = 0) :=
  ⟨((C10_post_requires_content_length sampleExt 0
      (mkCon .POST .V1_1 "/".toList [hostA]) rfl).1 rfl
      (final_state (checks_before_content_length sampleExt
        ⟨mkCon .POST .V1_1 "/".toList [hostA], 0⟩))
      (final_state (checks_before_content_length sampleExt
        ⟨mkCon .POST .V1_1 "/".toList [hostA], 0⟩ >>= check_content_length))
      (final_state (checks_before_method sampleExt ⟨mkCon .POST .V1_1 "/".toList [hostA], 0⟩))
      rfl rfl rfl).1 rfl,
   ((C10_post_requires_content_length sampleExt 0
      (mkCon .POST .V1_1 "/".toList [hostA, hdr "Content-Length" "0"]) rfl).1 rfl
      (final_state (checks_before_content_length sampleExt
        ⟨mkCon .POST .V1_1 "/".toList [hostA, hdr "Content-Length" "0"], 0⟩))
      (final_state (checks_before_content_length sampleExt
        ⟨mkCon .POST .V1_1 "/".toList [hostA, hdr "Content-Length" "0"], 0⟩
          >>= check_content_length))
      (final_state (checks_before_method sampleExt
        ⟨mkCon .POST .V1_1 "/".toList [hostA, hdr "Content-Length" "0"], 0⟩))
      rfl rfl rfl).2 (hdr "Content-Length" "0") rfl rfl⟩

/-- When the checks before the method check pass, each of them passed in turn. -/
theorem checks_before_method_inv (ext : Externals) (s s6 : St)
    (hpre : checks_before_method ext s = .ok s6) :
    ∃ s4 s5 : St, checks_before_content_length ext s = .ok s4 ∧
      check_content_length s4 = .ok s5 ∧ check_expect s5 = .ok s6 := by
  unfold checks_before_method at hpre
  rcases h4 : checks_before_content_length ext s with ⟨st, u⟩ | s4
  · rw [h4] at hpre
    exact absurd hpre (by simp [error_bind])
  · rw [h4, ok_bind] at hpre
    rcases h5 : check_content_length s4 with ⟨st, u⟩ | s5
    · rw [h5] at hpre
      exact absurd hpre (by simp [error_bind])
    · rw [h5, ok_bind] at hpre
      exact ⟨s4, s5, rfl, h5, hpre⟩

/-- The parser on a string of digits that denotes at most 2^63-1, the empty string
included: the number, everything consumed, `errno` untouched. -/
theorem g_ascii_strtoll_small (ds : List Char) (hd : ∀ c ∈ ds, is_digit c)
    (hsmall : decimal_value ds ≤ 2 ^ 63 - 1) (errno : Int) :
    g_ascii_strtoll ds errno = ⟨decimal_value ds, [], errno⟩ := by
  rcases ds with _ | ⟨c, t⟩
  · rfl
  · rw [g_ascii_strtoll_digits (c :: t) (by simp) hd errno]
    have hle : ¬ ((decimal_value (c :: t) : Int) > G_MAXINT64) := by
      simp only [G_MAXINT64]
      omega
    rw [if_neg hle]

/-- C11: for a request whose method is neither GET nor HEAD and on which the call returns
`TRUE`: with a Content-Length header whose value is a string of decimal digits denoting
at most 2^63-1, the content length afterwards is that number; without Content-Length
header the content length afterwards is the one at entry, so a content length of `-1`
at entry is still `-1`. -/
theorem C11_content_length_stored_or_unchanged (ext : Externals) (errno : Int)
    (con : liConnection)
    (hm : con.mainvr.request.http_method ≠ .GET ∧ con.mainvr.request.http_method ≠ .HEAD)
    (hret : (li_request_validate_header ext errno con).ret = true) :
    (∀ hh : liHttpHeader,
      li_http_header_lookup con.mainvr.request.headers "content-length".toList = some hh →
      (∀ c ∈ hh.value, is_digit c) → decimal_value hh.value ≤ 2 ^ 63 - 1 →
      (li_request_validate_header ext errno con).con.mainvr.request.content_length
        = decimal_value hh.value) ∧
    (li_http_header_lookup con.mainvr.request.headers "content-length".toList = none →
      (li_request_validate_header ext errno con).con.mainvr.request.content_length
        = con.mainvr.request.content_length ∧
      (con.mainvr.request.content_length = -1 →
        (li_request_validate_header ext errno con).con.mainvr.request.content_length = -1)) := by
  obtain ⟨s6, t, hpre, hcm, hout⟩ := validate_true_inv ext errno con hret
  obtain ⟨-, hmm⟩ := validate_from_method ext errno con s6 hpre
  obtain ⟨s4, s5, h4, h5, h6⟩ := checks_before_method_inv ext ⟨con, errno⟩ s6 hpre
  obtain ⟨-, ⟨hhd, -, -, -, -, -⟩, herr, hlen4, -⟩ :=
    validate_from_content_length ext errno con s4 h4
  simp only at hhd herr hlen4
  have hlen6 : s6.con.mainvr.request.content_length
      = s5.con.mainvr.request.content_length := by
    have := check_expect_content_length s5
    rw [h6] at this
    exact this
  have hnot : ¬ (s6.con.mainvr.request.http_method = .GET ∨
      s6.con.mainvr.request.http_method = .HEAD) := by
    rw [hmm]
    exact fun h => h.elim hm.1 hm.2
  have ht : t = s6 := by
    simp only [check_method, if_neg hnot] at hcm
    split at hcm
    · split at hcm
      · exact absurd hcm (by simp)
      · exact (Except.ok.inj hcm).symm
    · exact (Except.ok.inj hcm).symm
  rw [hout, ht]
  simp only [hlen6]
  constructor
  · intro hh hsome hd hsmall
    simp only [check_content_length, hhd, hsome, herr,
      g_ascii_strtoll_small hh.value hd hsmall errno, deref_nil, ne_eq,
      not_true_eq_false, ↓reduceIte] at h5
    have hnn : ¬ ((decimal_value hh.value : Int) < 0) := by omega
    rw [if_neg hnn] at h5
    split at h5
    · exact absurd h5 (by simp)
    · rw [← Except.ok.inj h5]
      rfl
  · intro hnone
    simp only [check_content_length, hhd, hnone] at h5
    have h54 : s5 = s4 := (Except.ok.inj h5).symm
    rw [h54, hlen4]
    exact ⟨rfl, fun h => h⟩

theorem C11_content_length_stored_or_unchanged_witness :
    (li_request_validate_header sampleExt 0 (mkCon .PUT .V1_1 "/".toList
        [hostA, hdr "Content-Length" "42"])).con.mainvr.request.content_length = 42 ∧
    (li_request_validate_header sampleExt 0 (mkCon .DELETE .V1_1 "/".toList
        [hostA])).con.mainvr.request.content_length = -1 :=
  ⟨(C11_content_length_stored_or_unchanged sampleExt 0
      (mkCon .PUT .V1_1 "/".toList [hostA, hdr "Content-Length" "42"])
      (by decide) (by decide)).1 (hdr "Content-Length" "42") rfl (by decide) (by decide),
   ((C11_content_length_stored_or_unchanged sampleExt 0
      (mkCon .DELETE .V1_1 "/".toList [hostA]) (by decide) (by decide)).2 rfl).2 rfl⟩

/-! ## The Expect loop -/

/-- An entry named `key` is found by `li_http_header_find_first` or behind what it
returns. -/
theorem find_first_mem (hs : liHttpHeaders) (key : GString) (hh : liHttpHeader)
    (hmem : hh ∈ hs) (hkey : li_http_header_key_is hh key = true) :
    hh ∈ li_http_header_find_first hs key := by
  induction hs with
  | nil => exact absurd hmem (List.not_mem_nil hh)
  | cons h t ih =>
    simp only [li_http_header_find_first]
    split
    · exact hmem
    · rename_i hne
      rcases List.mem_cons.mp hmem with heq | ht
      · rw [heq] at hkey
        exact absurd hkey hne
      · exact ih ht

/-- What `li_http_header_find_first` returns is a part of the headers. -/
theorem mem_of_find_first (hs : liHttpHeaders) (key : GString) (hh : liHttpHeader)
    (hmem : hh ∈ li_http_header_find_first hs key) : hh ∈ hs := by
  induction hs with
  | nil => exact hmem
  | cons h t ih =>
    simp only [li_http_header_find_first] at hmem
    split at hmem
    · exact hmem
    · exact List.mem_cons_of_mem h (ih hmem)

/-- One Expect occurrence with another value than `100-continue` ends the loop early. -/
theorem expect_loop_none (l : liHttpHeaders) (e : Bool) (hh : liHttpHeader) (hmem : hh ∈ l)
    (hkey : li_http_header_key_is hh "expect".toList = true)
    (hval : g_strcasecmp hh.value "100-continue".toList ≠ 0) : expect_loop l e = none := by
  induction l generalizing e with
  | nil => exact absurd hmem (List.not_mem_nil hh)
  | cons h t ih =>
    simp only [expect_loop]
    rcases List.mem_cons.mp hmem with heq | ht
    · rw [← heq, if_pos hkey, if_neg (fun h0 => hval h0.symm)]
    · split
      · split
        · exact ih true ht
        · rfl
      · exact ih e ht

/-- When every Expect occurrence is `100-continue`, the loop ends with the flag set as
soon as there is an occurrence (or the flag was set before). -/
theorem expect_loop_all (l : liHttpHeaders) (e : Bool)
    (hall : ∀ hh ∈ l, li_http_header_key_is hh "expect".toList = true →
      g_strcasecmp hh.value "100-continue".toList = 0) :
    expect_loop l e
      = some (e || l.any fun hh => li_http_header_key_is hh "expect".toList) := by
  induction l generalizing e with
  | nil => simp [expect_loop]
  | cons h t ih =>
    have ht : ∀ hh ∈ t, li_http_header_key_is hh "expect".toList = true →
        g_strcasecmp hh.value "100-continue".toList = 0 :=
      fun hh hm => hall hh (List.mem_cons_of_mem h hm)
    simp only [expect_loop, List.any_cons]
    by_cases hk : li_http_header_key_is h "expect".toList = true
    · rw [if_pos hk, if_pos (hall h (List.mem_cons_self h t) hk).symm, ih true ht, hk]
      simp
    · rw [if_neg hk, ih e ht]
      simp only [Bool.not_eq_true] at hk
      rw [hk]
      simp

/-- The Content-Length check leaves `expect_100_cont` alone. -/
theorem check_content_length_expect (s : St) :
    (final_state (check_content_length s)).con.expect_100_cont = s.con.expect_100_cont := by
  unfold check_content_length
  split
  · rfl
  · simp only []
    split
    · rfl
    · split
      · rfl
      · split <;> rfl

/-- When the checks up to the Content-Length check pass, the call is the chain from the
Expect check on; headers and version are those of the entry state, and so is
`expect_100_cont`. -/
theorem validate_from_expect (ext : Externals) (errno : Int) (con : liConnection)
    (s4 s5 : St) (h4 : checks_before_content_length ext ⟨con, errno⟩ = .ok s4)
    (h5 : check_content_length s4 = .ok s5) :
    li_request_validate_header ext errno con = finish (check_expect s5 >>= check_method) ∧
    s5.con.mainvr.request.headers = con.mainvr.request.headers ∧
    s5.con.mainvr.request.http_version = con.mainvr.request.http_version ∧
    s5.con.expect_100_cont = con.expect_100_cont := by
  obtain ⟨hval, ⟨hhd, -, -, hver, -, -⟩, -, -, hexp⟩ :=
    validate_from_content_length ext errno con s4 h4
  simp only at hhd hver hexp
  have hf := check_content_length_frame s4
  have he := check_content_length_expect s4
  rw [h5] at hf he
  simp only [final_state] at hf he
  refine ⟨?_, hf.1.trans hhd, hf.2.2.2.1.trans hver, he.trans hexp⟩
  rw [hval]
  simp only [chain_from_content_length, h5, ok_bind]
  rfl

/-- C12: for a request that passes the checks up to and including the Content-Length
check and has an Expect header whose value does not compare equal to `100-continue`
under `g_strcasecmp`, whatever its other Expect headers are: the call returns `FALSE`
with status 417 and `expect_100_cont` is the one at entry. -/
theorem C12_unsupported_expect_rejected_417 (ext : Externals) (errno : Int)
    (con : liConnection) (s4 s5 : St) (hh : liHttpHeader)
    (h4 : checks_before_content_length ext ⟨con, errno⟩ = .ok s4)
    (h5 : check_content_length s4 = .ok s5)
    (hmem : hh ∈ con.mainvr.request.headers)
    (hkey : li_http_header_key_is hh "expect".toList = true)
    (hval : g_strcasecmp hh.value "100-continue".toList ≠ 0) :
    (li_request_validate_header ext errno con).ret = false ∧
    (li_request_validate_header ext errno con).con.mainvr.response_http_status = 417 ∧
    (li_request_validate_header ext errno con).con.expect_100_cont = con.expect_100_cont := by
  obtain ⟨hrun, hhd, -, hexp⟩ := validate_from_expect ext errno con s4 s5 h4 h5
  have hin := find_first_mem _ _ hh hmem hkey
  rw [hrun]
  simp only [check_expect, hhd]
  rcases hl : li_http_header_find_first con.mainvr.request.headers "expect".toList
    with _ | ⟨h, t⟩
  · rw [hl] at hin
    exact absurd hin (List.not_mem_nil hh)
  · rw [hl] at hin
    simp only [expect_loop_none (h :: t) false hh hin hkey hval]
    exact ⟨rfl, rfl, hexp⟩

theorem C12_unsupported_expect_rejected_417_witness :
    (li_request_validate_header sampleExt 0 (mkCon .PUT .V1_1 "/".toList
        [hostA, hdr "Expect" "100-continue", hdr "expect" "gzip"])).ret = false ∧
    (li_request_validate_header sampleExt 0 (mkCon .PUT .V1_1 "/".toList
        [hostA, hdr "Expect" "100-continue", hdr "expect" "gzip"])
        ).con.mainvr.response_http_status = 417 ∧
    (li_request_validate_header sampleExt 0 (mkCon .PUT .V1_1 "/".toList
        [hostA, hdr "Expect" "100-continue", hdr "expect" "gzip"])).con.expect_100_cont
      = false :=
  C12_unsupported_expect_rejected_417 sampleExt 0
    (mkCon .PUT .V1_1 "/".toList [hostA, hdr "Expect" "100-continue", hdr "expect" "gzip"])
    (final_state (checks_before_content_length sampleExt
      ⟨mkCon .PUT .V1_1 "/".toList
        [hostA, hdr "Expect" "100-continue", hdr "expect" "gzip"], 0⟩))
    (final_state (checks_before_content_length sampleExt
      ⟨mkCon .PUT .V1_1 "/".toList
        [hostA, hdr "Expect" "100-continue", hdr "expect" "gzip"], 0⟩
        >>= check_content_length))
    (hdr "expect" "gzip") rfl rfl (by decide) (by decide) (by decide)

/-- The method check leaves `expect_100_cont` alone, also when it rejects. -/
theorem finish_check_method_expect (s : St) :
    (finish (check_method s)).con.expect_100_cont = s.con.expect_100_cont := by
  unfold check_method
  simp only []
  split
  · split <;> rfl
  · split
    · split <;> rfl
    · rfl

/-- C13: for a request that passes the checks up to and including the Content-Length
check, has at least one Expect header and only Expect values that compare equal to
`100-continue` under `g_strcasecmp`: on HTTP/1.0 the call returns `FALSE` with status 417
and `expect_100_cont` is the one at entry; on HTTP/1.1 the Expect check passes, setting
`expect_100_cont`, and `expect_100_cont` is `TRUE` after the call. -/
theorem C13_expect_100_continue (ext : Externals) (errno : Int) (con : liConnection)
    (s4 s5 : St) (hh : liHttpHeader)
    (h4 : checks_before_content_length ext ⟨con, errno⟩ = .ok s4)
    (h5 : check_content_length s4 = .ok s5)
    (hmem : hh ∈ con.mainvr.request.headers)
    (hkey : li_http_header_key_is hh "expect".toList = true)
    (hall : ∀ x ∈ con.mainvr.request.headers, li_http_header_key_is x "expect".toList = true →
      g_strcasecmp x.value "100-continue".toList = 0) :
    (con.mainvr.request.http_version = .V1_0 →
      (li_request_validate_header ext errno con).ret = false ∧
      (li_request_validate_header ext errno con).con.mainvr.response_http_status = 417 ∧
      (li_request_validate_header ext errno con).con.expect_100_cont = con.expect_100_cont) ∧
    (con.mainvr.request.http_version = .V1_1 →
      check_expect s5 = .ok { s5 with con := { s5.con with expect_100_cont := true } } ∧
      (li_request_validate_header ext errno con).con.expect_100_cont = true) := by
  obtain ⟨hrun, hhd, hver, hexp⟩ := validate_from_expect ext errno con s4 s5 h4 h5
  have hin := find_first_mem _ _ hh hmem hkey
  rcases hl : li_http_header_find_first con.mainvr.request.headers "expect".toList
    with _ | ⟨h, t⟩
  · rw [hl] at hin
    exact absurd hin (List.not_mem_nil hh)
  · rw [hl] at hin
    have hall2 : ∀ x ∈ h :: t, li_http_header_key_is x "expect".toList = true →
        g_strcasecmp x.value "100-continue".toList = 0 := by
      intro x hx
      rw [← hl] at hx
      exact hall x (mem_of_find_first _ _ x hx)
    have hany : (h :: t).any (fun x => li_http_header_key_is x "expect".toList) = true :=
      List.any_eq_true.mpr ⟨hh, hin, hkey⟩
    have hloop : expect_loop (h :: t) false = some true := by
      rw [expect_loop_all (h :: t) false hall2, hany]
      rfl
    constructor
    · intro hv
      rw [hrun]
      simp only [check_expect, hhd, hl, hloop, hver, hv, and_self, ↓reduceIte]
      exact ⟨rfl, rfl, hexp⟩
    · intro hv
      have hpass : check_expect s5
          = .ok { s5 with con := { s5.con with expect_100_cont := true } } := by
        simp only [check_expect, hhd, hl, hloop, hver, hv, reduceCtorEq, and_false,
          ↓reduceIte]
      refine ⟨hpass, ?_⟩
      rw [hrun, hpass, ok_bind, finish_check_method_expect]

theorem C13_expect_100_continue_witness :
    ((li_request_validate_header sampleExt 0 (mkCon .PUT .V1_0 "/".toList
        [hdr "Expect" "100-Continue"])).ret = false ∧
      (li_request_validate_header sampleExt 0 (mkCon .PUT .V1_0 "/".toList
        [hdr "Expect" "100-Continue"])).con.mainvr.response_http_status = 417 ∧
      (li_request_validate_header sampleExt 0 (mkCon .PUT .V1_0 "/".toList
        [hdr "Expect" "100-Continue"])).con.expect_100_cont = false) ∧
    (li_request_validate_header sampleExt 0 (mkCon .PUT .V1_1 "/".toList
        [hostA, hdr "Expect" "100-Continue"])).con.expect_100_cont = true :=
  ⟨(C13_expect_100_continue sampleExt 0
      (mkCon .PUT .V1_0 "/".toList [hdr "Expect" "100-Continue"])
      (final_state (checks_before_content_length sampleExt
        ⟨mkCon .PUT .V1_0 "/".toList [hdr "Expect" "100-Continue"], 0⟩))
      (final_state (checks_before_content_length sampleExt
        ⟨mkCon .PUT .V1_0 "/".toList [hdr "Expect" "100-Continue"], 0⟩
          >>= check_content_length))
      (hdr "Expect" "100-Continue") rfl rfl (by decide) (by decide) (by decide)).1 rfl,
   ((C13_expect_100_continue sampleExt 0
      (mkCon .PUT .V1_1 "/".toList [hostA, hdr "Expect" "100-Continue"])
      (final_state (checks_before_content_length sampleExt
        ⟨mkCon .PUT .V1_1 "/".toList [hostA, hdr "Expect" "100-Continue"], 0⟩))
      (final_state (checks_before_content_length sampleExt
        ⟨mkCon .PUT .V1_1 "/".toList [hostA, hdr "Expect" "100-Continue"], 0⟩
          >>= check_content_length))
      (hdr "Expect" "100-Continue") rfl rfl (by decide) (by decide) (by decide)).2 rfl).2⟩

/-! ## Persistence -/

theorem SameKeepAlive_trans {s t u : St} (hst : SameKeepAlive s t) (htu : SameKeepAlive t u) :
    SameKeepAlive s u := Eq.trans htu hst

theorem check_target_keep_alive (s : St) : SameKeepAlive s (final_state (check_target s)) := by
  unfold check_target
  split <;> rfl

theorem check_host_keep_alive (ext : Externals) (s : St) :
    SameKeepAlive s (final_state (check_host ext s)) := by
  unfold check_host
  simp only []
  split
  · split <;> rfl
  · split
    · rfl
    · split
      · rfl
      · split <;> rfl

theorem check_uri_keep_alive (ext : Externals) (s : St) :
    SameKeepAlive s (final_state (check_uri ext s)) := by
  unfold check_uri
  simp only []
  split <;> rfl

theorem check_content_length_keep_alive (s : St) :
    SameKeepAlive s (final_state (check_content_length s)) := by
  unfold check_content_length
  split
  · rfl
  · simp only []
    split
    · rfl
    · split
      · rfl
      · split <;> rfl

theorem check_expect_keep_alive (s : St) : SameKeepAlive s (final_state (check_expect s)) := by
  unfold check_expect
  simp only []
  split
  · rfl
  · split
    · rfl
    · split <;> rfl

theorem check_method_keep_alive (s : St) : SameKeepAlive s (final_state (check_method s)) := by
  unfold check_method
  simp only []
  split
  · split <;> rfl
  · split
    · split <;> rfl
    · rfl

/-- No check after the version check writes `keep_alive`. -/
theorem chain_from_target_keep_alive (ext : Externals) (s : St) :
    SameKeepAlive s (final_state (chain_from_target ext s)) := by
  have h6 : ∀ t, SameKeepAlive t (final_state (chain_from_expect t)) := fun t =>
    bind_frame SameKeepAlive SameKeepAlive_trans _ _ _ (check_expect_keep_alive t)
      check_method_keep_alive
  have h5 : ∀ t, SameKeepAlive t (final_state (chain_from_content_length t)) := fun t =>
    bind_frame SameKeepAlive SameKeepAlive_trans _ _ _ (check_content_length_keep_alive t) h6
  have h4 : ∀ t, SameKeepAlive t (final_state (chain_from_uri ext t)) := fun t =>
    bind_frame SameKeepAlive SameKeepAlive_trans _ _ _ (check_uri_keep_alive ext t) h5
  have h3 : ∀ t, SameKeepAlive t (final_state (chain_from_host ext t)) := fun t =>
    bind_frame SameKeepAlive SameKeepAlive_trans _ _ _ (check_host_keep_alive ext t) h4
  exact bind_frame SameKeepAlive SameKeepAlive_trans _ _ _ (check_target_keep_alive s) h3

/-- After a call that returns `TRUE` the version is set, and `keep_alive` is the one at
entry, turned off on HTTP/1.0 unless `Connection: keep-alive` is there and on HTTP/1.1
if `Connection: close` is there. -/
theorem validate_true_keep_alive (ext : Externals) (errno : Int) (con : liConnection)
    (hret : (li_request_validate_header ext errno con).ret = true) :
    (con.mainvr.request.http_version = .V1_0 ∧
      (li_request_validate_header ext errno con).con.keep_alive
        = (con.keep_alive && li_http_header_is con.mainvr.request.headers
            "connection".toList "keep-alive".toList)) ∨
    (con.mainvr.request.http_version = .V1_1 ∧
      (li_request_validate_header ext errno con).con.keep_alive
        = (con.keep_alive && !li_http_header_is con.mainvr.request.headers
            "connection".toList "close".toList)) := by
  rw [validate_eq_chain, validate_chain_nested] at hret ⊢
  have key : ∀ c : liConnection,
      (finish (chain_from_target ext ⟨c, errno⟩)).ret = true →
      (finish (chain_from_target ext ⟨c, errno⟩)).con.keep_alive = c.keep_alive := by
    intro c hc
    have hk := chain_from_target_keep_alive ext ⟨c, errno⟩
    rcases hr : chain_from_target ext ⟨c, errno⟩ with ⟨st, u⟩ | u
    · rw [hr] at hc
      exact absurd hc (by simp [finish])
    · rw [hr] at hk
      exact hk
  rcases hv : con.mainvr.request.http_version
  · simp only [check_version, hv, error_bind, finish] at hret
    exact absurd hret (by simp)
  · left
    refine ⟨rfl, ?_⟩
    simp only [check_version, hv] at hret ⊢
    rcases hk : li_http_header_is con.mainvr.request.headers "connection".toList
      "keep-alive".toList
    · simp only [hk, Bool.false_eq_true, ↓reduceIte, ok_bind, Bool.and_false] at hret ⊢
      exact key _ hret
    · simp only [hk, ↓reduceIte, ok_bind, Bool.and_true] at hret ⊢
      exact key _ hret
  · right
    refine ⟨rfl, ?_⟩
    simp only [check_version, hv] at hret ⊢
    rcases hk : li_http_header_is con.mainvr.request.headers "connection".toList
      "close".toList
    · simp only [hk, Bool.false_eq_true, ↓reduceIte, ok_bind, Bool.not_false,
        Bool.and_true] at hret ⊢
      exact key _ hret
    · simp only [hk, ↓reduceIte, ok_bind, Bool.not_true, Bool.and_false] at hret ⊢
      exact key _ hret

/-- Without an entry named `key` no entry named `key` has the value `val`. -/
theorem header_is_of_absent (hs : liHttpHeaders) (key val : GString)
    (h : li_http_header_find_first hs key = []) : li_http_header_is hs key val = false := by
  induction hs with
  | nil => rfl
  | cons x t ih =>
    simp only [li_http_header_find_first] at h
    split at h
    · exact absurd h (by simp)
    · rename_i hx
      simp only [Bool.not_eq_true] at hx
      simp only [li_http_header_is, hx, Bool.false_and, Bool.false_or]
      exact ih h

/-- C14, counterexample: on `conKeepAliveOff`, an HTTP/1.1 request with a Host header and
no Connection header, the call returns `TRUE` and `keep_alive` is `FALSE` afterwards. -/
theorem C14_keep_alive_not_turned_on_counterexample :
    conKeepAliveOff.mainvr.request.http_version = .V1_1 ∧
    li_http_header_find_first conKeepAliveOff.mainvr.request.headers "host".toList ≠ [] ∧
    li_http_header_find_first conKeepAliveOff.mainvr.request.headers "connection".toList = [] ∧
    (li_request_validate_header sampleExt 0 conKeepAliveOff).ret = true ∧
    (li_request_validate_header sampleExt 0 conKeepAliveOff).con.keep_alive = false := by
  refine ⟨rfl, ?_, ?_, ?_, ?_⟩ <;> decide

/-- C14, amended: after a call that returns `TRUE` on a connection whose `keep_alive` was
`TRUE` at entry: for HTTP/1.1 without Connection header `keep_alive` is `TRUE`, and with
`Connection: close` it is `FALSE`; for HTTP/1.0 without `Connection: keep-alive` it is
`FALSE`, and with `Connection: keep-alive` it is `TRUE`. -/
theorem C14_keep_alive_after_validation (ext : Externals) (errno : Int) (con : liConnection)
    (hret : (li_request_validate_header ext errno con).ret = true)
    (hka : con.keep_alive = true) :
    (con.mainvr.request.http_version = .V1_1 →
      li_http_header_find_first con.mainvr.request.headers "connection".toList = [] →
      (li_request_validate_header ext errno con).con.keep_alive = true) ∧
    (con.mainvr.request.http_version = .V1_1 →
      li_http_header_is con.mainvr.request.headers "connection".toList "close".toList = true →
      (li_request_validate_header ext errno con).con.keep_alive = false) ∧
    (con.mainvr.request.http_version = .V1_0 →
      li_http_header_is con.mainvr.request.headers "connection".toList "keep-alive".toList
        = false →
      (li_request_validate_header ext errno con).con.keep_alive = false) ∧
    (con.mainvr.request.http_version = .V1_0 →
      li_http_header_is con.mainvr.request.headers "connection".toList "keep-alive".toList
        = true →
      (li_request_validate_header ext errno con).con.keep_alive = true) := by
  rcases validate_true_keep_alive ext errno con hret with ⟨hv, hk⟩ | ⟨hv, hk⟩
  · refine ⟨fun h => ?_, fun h => ?_, fun _ hc => ?_, fun _ hc => ?_⟩
    · rw [hv] at h
      exact absurd h (by decide)
    · rw [hv] at h
      exact absurd h (by decide)
    · rw [hk, hc, Bool.and_false]
    · rw [hk, hc, hka]
      rfl
  · refine ⟨fun _ hc => ?_, fun _ hc => ?_, fun h => ?_, fun h => ?_⟩
    · rw [hk, header_is_of_absent _ _ _ hc, hka]
      rfl
    · rw [hk, hc]
      simp
    · rw [hv] at h
      exact absurd h (by decide)
    · rw [hv] at h
      exact absurd h (by decide)

theorem C14_keep_alive_after_validation_witness :
    (li_request_validate_header sampleExt 0
        (mkCon .GET .V1_1 "/".toList [hostA])).con.keep_alive = true ∧
    (li_request_validate_header sampleExt 0
        (mkCon .GET .V1_1 "/".toList [hostA, hdr "Connection" "Close"])).con.keep_alive = false ∧
    (li_request_validate_header sampleExt 0
        (mkCon .GET .V1_0 "/".toList [])).con.keep_alive = false ∧
    (li_request_validate_header sampleExt 0
        (mkCon .GET .V1_0 "/".toList [hdr "Connection" "keep-alive"])).con.keep_alive = true :=
  ⟨(C14_keep_alive_after_validation sampleExt 0 (mkCon .GET .V1_1 "/".toList [hostA])
      (by decide) rfl).1 rfl (by decide),
   (C14_keep_alive_after_validation sampleExt 0
      (mkCon .GET .V1_1 "/".toList [hostA, hdr "Connection" "Close"])
      (by decide) rfl).2.1 rfl (by decide),
   (C14_keep_alive_after_validation sampleExt 0 (mkCon .GET .V1_0 "/".toList [])
      (by decide) rfl).2.2.1 rfl (by decide),
   (C14_keep_alive_after_validation sampleExt 0
      (mkCon .GET .V1_0 "/".toList [hdr "Connection" "keep-alive"])
      (by decide) rfl).2.2.2 rfl (by decide)⟩

/-- A call that returns `FALSE` leaves `keep_alive` off. -/
theorem validate_false_keep_alive (ext : Externals) (errno : Int) (con : liConnection)
    (hret : (li_request_validate_header ext errno con).ret = false) :
    (li_request_validate_header ext errno con).con.keep_alive = false := by
  rw [validate_eq_chain] at hret ⊢
  rcases hr : validate_chain ext ⟨con, errno⟩ with ⟨st, t⟩ | t
  · rfl
  · rw [hr] at hret
    exact absurd hret (by simp [finish])

/-- C20: the call never turns persistence on: with `keep_alive` `FALSE` before the call it
is `FALSE` after it.  When the call returns `TRUE`, `keep_alive` afterwards is its value
at entry AND the header condition of the version: on HTTP/1.0 a `Connection: keep-alive`
header is there, on HTTP/1.1 no `Connection: close` header is there. -/
theorem C20_keep_alive_only_turned_off (ext : Externals) (errno : Int) (con : liConnection) :
    (con.keep_alive = false →
      (li_request_validate_header ext errno con).con.keep_alive = false) ∧
    ((li_request_validate_header ext errno con).ret = true →
      (con.mainvr.request.http_version = .V1_0 ∧
        (li_request_validate_header ext errno con).con.keep_alive
          = (con.keep_alive && li_http_header_is con.mainvr.request.headers
              "connection".toList "keep-alive".toList)) ∨
      (con.mainvr.request.http_version = .V1_1 ∧
        (li_request_validate_header ext errno con).con.keep_alive
          = (con.keep_alive && !li_http_header_is con.mainvr.request.headers
              "connection".toList "close".toList))) := by
  refine ⟨fun hoff => ?_, fun hret => validate_true_keep_alive ext errno con hret⟩
  rcases hret : (li_request_validate_header ext errno con).ret
  · exact validate_false_keep_alive ext errno con hret
  · rcases validate_true_keep_alive ext errno con hret with ⟨-, hk⟩ | ⟨-, hk⟩ <;>
      rw [hk, hoff, Bool.false_and]

theorem C20_keep_alive_only_turned_off_witness :
    (li_request_validate_header sampleExt 0 conKeepAliveOff).con.keep_alive = false ∧
    (li_request_validate_header sampleExt 0
      (mkCon .GET .V1_0 "/".toList [hdr "Connection" "Keep-Alive"])).con.keep_alive
      = (true && li_http_header_is [hdr "Connection" "Keep-Alive"]
          "connection".toList "keep-alive".toList) :=
  ⟨(C20_keep_alive_only_turned_off sampleExt 0 conKeepAliveOff).1 rfl,
   ((C20_keep_alive_only_turned_off sampleExt 0
      (mkCon .GET .V1_0 "/".toList [hdr "Connection" "Keep-Alive"])).2 (by decide)).elim
      (fun h => h.2) (fun h => absurd h.1 (by decide))⟩

/-! ## The URI canonicalizer -/

/-- The canonicalizer in one piece: it fails with the URI the raw-URI parser left when
the parser fails or yields `*` for a method other than OPTIONS; otherwise it succeeds with
the path decoded and simplified, copied into `orig_path` when that was empty. -/
theorem request_parse_url_eq (ext : Externals) (vr : liVRequest) :
    request_parse_url ext vr =
      if (ext.li_parse_raw_url { vr.request.uri with query := [], path := [] }).1 = false then
        (false, { vr with request := { vr.request with uri :=
          (ext.li_parse_raw_url { vr.request.uri with query := [], path := [] }).2 } })
      else if c_str (ext.li_parse_raw_url { vr.request.uri with query := [], path := [] }).2.path
          = ['*'] ∧ vr.request.http_method ≠ .OPTIONS then
        (false, { vr with request := { vr.request with uri :=
          (ext.li_parse_raw_url { vr.request.uri with query := [], path := [] }).2 } })
      else
        (true, { vr with request := { vr.request with uri :=
          { (ext.li_parse_raw_url { vr.request.uri with query := [], path := [] }).2 with
            path := ext.li_path_simplify (ext.li_url_decode
              (ext.li_parse_raw_url { vr.request.uri with query := [], path := [] }).2.path)
            orig_path :=
              if (ext.li_parse_raw_url { vr.request.uri with query := [], path := [] }
                  ).2.orig_path = [] then
                ext.li_path_simplify (ext.li_url_decode
                  (ext.li_parse_raw_url { vr.request.uri with query := [], path := [] }).2.path)
              else (ext.li_parse_raw_url { vr.request.uri with query := [], path := [] }
                  ).2.orig_path } } }) := by
  simp only [request_parse_url, Id.run, pure, bind]
  generalize ext.li_parse_raw_url _ = parsed
  rcases hp : parsed.1
  · simp
  · simp only [Bool.not_true, Bool.false_eq_true, ↓reduceIte, reduceCtorEq]
    split
    · rfl
    · rcases ho : parsed.2.orig_path with _ | ⟨c, t⟩
      · simp
      · simp

/-- When the version, request-target and Host checks pass, the call is the chain from the
URI check on, and the method is the one at entry. -/
theorem validate_from_uri (ext : Externals) (errno : Int) (con : liConnection) (s3 : St)
    (hpre : checks_before_uri ext ⟨con, errno⟩ = .ok s3) :
    li_request_validate_header ext errno con = finish (chain_from_uri ext s3) ∧
    s3.con.mainvr.request.http_method = con.mainvr.request.http_method := by
  constructor
  · rw [validate_eq_chain]
    have h : validate_chain ext ⟨con, errno⟩
        = (checks_before_uri ext ⟨con, errno⟩ >>= chain_from_uri ext) := by
      simp only [validate_chain, checks_before_method, checks_before_content_length,
        checks_before_uri, bind_assoc]
      rfl
    rw [h, hpre, ok_bind]
  · have h : Frame ⟨con, errno⟩ (final_state (checks_before_uri ext ⟨con, errno⟩)) := by
      unfold checks_before_uri
      exact bind_frame Frame Frame_trans _ _ _
        (bind_frame Frame Frame_trans _ _ _ (check_version_frame _) check_target_frame)
        (check_host_frame ext)
    rw [hpre] at h
    exact h.2.1

/-- C15: when the raw-URI parser succeeds and yields the path `*` (compared as the C
string it is, up to a NUL), `request_parse_url` returns `TRUE` exactly for the method
OPTIONS; for a request with another method that passed the version, request-target and
Host checks the call then returns `FALSE` with status 400. -/
theorem C15_asterisk_only_for_options (ext : Externals) :
    (∀ vr : liVRequest,
      (ext.li_parse_raw_url { vr.request.uri with query := [], path := [] }).1 = true →
      c_str (ext.li_parse_raw_url { vr.request.uri with query := [], path := [] }).2.path
        = ['*'] →
      ((request_parse_url ext vr).1 = true ↔ vr.request.http_method = .OPTIONS) ∧
      (vr.request.http_method ≠ .OPTIONS → (request_parse_url ext vr).1 = false)) ∧
    (∀ (errno : Int) (con : liConnection) (s3 : St),
      checks_before_uri ext ⟨con, errno⟩ = .ok s3 →
      (ext.li_parse_raw_url
        { s3.con.mainvr.request.uri with query := [], path := [] }).1 = true →
      c_str (ext.li_parse_raw_url
        { s3.con.mainvr.request.uri with query := [], path := [] }).2.path = ['*'] →
      con.mainvr.request.http_method ≠ .OPTIONS →
      (li_request_validate_header ext errno con).ret = false ∧
      (li_request_validate_header ext errno con).con.mainvr.response_http_status = 400) := by
  have hfail : ∀ vr : liVRequest,
      (ext.li_parse_raw_url { vr.request.uri with query := [], path := [] }).1 = true →
      c_str (ext.li_parse_raw_url { vr.request.uri with query := [], path := [] }).2.path
        = ['*'] →
      vr.request.http_method ≠ .OPTIONS → (request_parse_url ext vr).1 = false := by
    intro vr hok hstar hm
    rw [request_parse_url_eq]
    simp only [hok, Bool.true_eq_false, ↓reduceIte, hstar, true_and]
    rw [if_pos hm]
  constructor
  · intro vr hok hstar
    refine ⟨⟨fun h => ?_, fun h => ?_⟩, hfail vr hok hstar⟩
    · by_contra hm
      rw [hfail vr hok hstar hm] at h
      exact absurd h (by decide)
    · rw [request_parse_url_eq]
      simp only [hok, Bool.true_eq_false, ↓reduceIte, hstar, true_and, h, ne_eq,
        not_true_eq_false]
  · intro errno con s3 hpre hok hstar hm
    obtain ⟨hrun, hmeth⟩ := validate_from_uri ext errno con s3 hpre
    have hf := hfail s3.con.mainvr hok hstar (by rw [hmeth]; exact hm)
    rw [hrun]
    simp only [chain_from_uri, check_uri, hf, Bool.false_eq_true, ↓reduceIte]
    exact ⟨rfl, rfl⟩

theorem C15_asterisk_only_for_options_witness :
    ((request_parse_url sampleExt (mkCon .OPTIONS .V1_1 "*".toList [hostA]).mainvr).1 = true ↔
      (mkCon .OPTIONS .V1_1 "*".toList [hostA]).mainvr.request.http_method = .OPTIONS) ∧
    ((li_request_validate_header sampleExt 0
        (mkCon .GET .V1_1 "*".toList [hostA])).ret = false ∧
      (li_request_validate_header sampleExt 0
        (mkCon .GET .V1_1 "*".toList [hostA])).con.mainvr.response_http_status = 400) :=
  ⟨((C15_asterisk_only_for_options sampleExt).1
      (mkCon .OPTIONS .V1_1 "*".toList [hostA]).mainvr rfl rfl).1,
   (C15_asterisk_only_for_options sampleExt).2 0 (mkCon .GET .V1_1 "*".toList [hostA])
      (final_state (checks_before_uri sampleExt ⟨mkCon .GET .V1_1 "*".toList [hostA], 0⟩))
      rfl rfl rfl (by decide)⟩

/-- C16: with a raw-URI parser that leaves `orig_path` alone, `request_parse_url` writes
`orig_path` only when it is empty: a non-empty `orig_path` at entry is the `orig_path`
afterwards, whether the call succeeds or fails; an empty one is, after a successful call,
the decoded and simplified path the call leaves in `uri.path`.  So after a first
canonicalization that succeeds with a non-empty path on an empty `orig_path`, a second
canonicalization of a request with that `orig_path` leaves it equal to the first path. -/
theorem C16_orig_path_captured_once (ext : Externals)
    (hext : ∀ u : liRequestUri, (ext.li_parse_raw_url u).2.orig_path = u.orig_path) :
    (∀ vr : liVRequest, vr.request.uri.orig_path ≠ [] →
      (request_parse_url ext vr).2.request.uri.orig_path = vr.request.uri.orig_path) ∧
    (∀ vr : liVRequest, vr.request.uri.orig_path = [] → (request_parse_url ext vr).1 = true →
      (request_parse_url ext vr).2.request.uri.orig_path
        = (request_parse_url ext vr).2.request.uri.path ∧
      (request_parse_url ext vr).2.request.uri.path
        = ext.li_path_simplify (ext.li_url_decode
            (ext.li_parse_raw_url { vr.request.uri with query := [], path := [] }).2.path)) ∧
    (∀ vr vr2 : liVRequest, vr.request.uri.orig_path = [] →
      (request_parse_url ext vr).1 = true →
      (request_parse_url ext vr).2.request.uri.path ≠ [] →
      vr2.request.uri.orig_path = (request_parse_url ext vr).2.request.uri.orig_path →
      (request_parse_url ext vr2).2.request.uri.orig_path
        = (request_parse_url ext vr).2.request.uri.path) := by
  have hkeep : ∀ vr : liVRequest, vr.request.uri.orig_path ≠ [] →
      (request_parse_url ext vr).2.request.uri.orig_path = vr.request.uri.orig_path := by
    intro vr hne
    have ho := hext { vr.request.uri with query := [], path := [] }
    simp only at ho
    rw [request_parse_url_eq]
    split
    · exact ho
    · split
      · exact ho
      · simp only [ho, if_neg hne]
  have hfirst : ∀ vr : liVRequest, vr.request.uri.orig_path = [] →
      (request_parse_url ext vr).1 = true →
      (request_parse_url ext vr).2.request.uri.orig_path
        = (request_parse_url ext vr).2.request.uri.path ∧
      (request_parse_url ext vr).2.request.uri.path
        = ext.li_path_simplify (ext.li_url_decode
            (ext.li_parse_raw_url { vr.request.uri with query := [], path := [] }).2.path) := by
    intro vr hempty hok
    have ho := (hext { vr.request.uri with query := [], path := [] }).trans hempty
    rw [request_parse_url_eq] at hok ⊢
    split
    · rename_i h
      rw [if_pos h] at hok
      exact absurd hok (Bool.false_ne_true)
    · rename_i h
      rw [if_neg h] at hok
      split
      · rename_i h2
        rw [if_pos h2] at hok
        exact absurd hok (Bool.false_ne_true)
      · simp only at ho
        simp only [ho, ↓reduceIte, and_self]
  refine ⟨hkeep, hfirst, fun vr vr2 hempty hok hne h2 => ?_⟩
  have h1 := (hfirst vr hempty hok).1
  rw [h1] at h2
  rw [hkeep vr2 (by rw [h2]; exact hne), h2]

theorem C16_orig_path_captured_once_witness :
    (request_parse_url sampleExt
      { (request_parse_url sampleExt (mkCon .GET .V1_1 "/a".toList [hostA]).mainvr).2 with
        request := { (request_parse_url sampleExt
            (mkCon .GET .V1_1 "/a".toList [hostA]).mainvr).2.request with
          uri := { (request_parse_url sampleExt
              (mkCon .GET .V1_1 "/a".toList [hostA]).mainvr).2.request.uri with
            raw := "/b".toList } } }).2.request.uri.orig_path
      = (request_parse_url sampleExt
          (mkCon .GET .V1_1 "/a".toList [hostA]).mainvr).2.request.uri.path :=
  (C16_orig_path_captured_once sampleExt (fun _ => rfl)).2.2
    (mkCon .GET .V1_1 "/a".toList [hostA]).mainvr _ rfl rfl (by decide) rfl

/-! ## Reset -/

/-- Resetting a request gives the request `li_request_init` produces. -/
theorem li_request_reset_eq_init (req : liRequest) : li_request_reset req = li_request_init := by
  simp [li_request_reset, li_request_init]

/-- C17: `li_request_reset` restores the state `li_request_init` produces: method and
version unset, the method text and the seven URI strings empty, no headers, content
length `-1`.  Hence validating a reset request filled with some input is validating a
fresh request filled with the same input, and resetting twice is resetting once. -/
theorem C17_reset_restores_initial_state :
    (∀ req : liRequest, li_request_reset req = li_request_init) ∧
    (∀ req : liRequest,
      (li_request_reset req).http_method = .UNSET ∧
      (li_request_reset req).http_method_str = [] ∧
      (li_request_reset req).http_version = .UNSET ∧
      (li_request_reset req).uri.raw = [] ∧ (li_request_reset req).uri.scheme = [] ∧
      (li_request_reset req).uri.authority = [] ∧ (li_request_reset req).uri.path = [] ∧
      (li_request_reset req).uri.orig_path = [] ∧ (li_request_reset req).uri.query = [] ∧
      (li_request_reset req).uri.host = [] ∧
      (li_request_reset req).headers = [] ∧ (li_request_reset req).content_length = -1) ∧
    (∀ (ext : Externals) (errno : Int) (con : liConnection) (req : liRequest)
        (fill : liRequest → liRequest),
      li_request_validate_header ext errno
          { con with mainvr := { con.mainvr with request := fill (li_request_reset req) } }
        = li_request_validate_header ext errno
          { con with mainvr := { con.mainvr with request := fill li_request_init } }) ∧
    (∀ req : liRequest, li_request_reset (li_request_reset req) = li_request_reset req) := by
  refine ⟨li_request_reset_eq_init, fun req => ?_, fun ext errno con req fill => ?_,
    fun req => ?_⟩
  · rw [li_request_reset_eq_init]
    exact ⟨rfl, rfl, rfl, rfl, rfl, rfl, rfl, rfl, rfl, rfl, rfl, rfl⟩
  · rw [li_request_reset_eq_init]
  · rw [li_request_reset_eq_init, li_request_reset_eq_init]

/-! ## Version and method of an accepted request -/

/-- C18, counterexample: on `conUnsetMethod`, an HTTP/1.1 request with a Host header
whose method is unset, the call returns `TRUE` and the method is still unset. -/
theorem C18_unset_method_accepted_counterexample :
    (li_request_validate_header sampleExt 0 conUnsetMethod).ret = true ∧
    (li_request_validate_header sampleExt 0 conUnsetMethod).con.mainvr.request.http_method
      = .UNSET := by
  constructor <;> decide

/-- C18, amended: when the call returns `TRUE`, the version of the request is not unset;
version and method are the ones the request had at entry, and the method is not looked at
for being set. -/
theorem C18_accepted_request_has_version (ext : Externals) (errno : Int) (con : liConnection)
    (hret : (li_request_validate_header ext errno con).ret = true) :
    (li_request_validate_header ext errno con).con.mainvr.request.http_version ≠ .UNSET ∧
    (li_request_validate_header ext errno con).con.mainvr.request.http_version
      = con.mainvr.request.http_version ∧
    (li_request_validate_header ext errno con).con.mainvr.request.http_method
      = con.mainvr.request.http_method := by
  have hver : con.mainvr.request.http_version ≠ .UNSET := by
    rcases validate_true_keep_alive ext errno con hret with ⟨hv, -⟩ | ⟨hv, -⟩ <;>
      (rw [hv]; decide)
  obtain ⟨s6, t, hpre, hcm, hout⟩ := validate_true_inv ext errno con hret
  have hf : Frame ⟨con, errno⟩ t := by
    have h := validate_chain_frame ext ⟨con, errno⟩
    simp only [validate_chain, hpre, ok_bind, hcm] at h
    exact h
  rw [hout]
  exact ⟨by rw [show t.con.mainvr.request.http_version = con.mainvr.request.http_version
    from hf.2.2.2.1]; exact hver, hf.2.2.2.1, hf.2.1⟩

theorem C18_accepted_request_has_version_witness :
    (li_request_validate_header sampleExt 0
      (mkCon .GET .V1_0 "/".toList [])).con.mainvr.request.http_version ≠ .UNSET :=
  (C18_accepted_request_has_version sampleExt 0 (mkCon .GET .V1_0 "/".toList [])
    (by decide)).1

/-- C19, counterexample: `conPlusFive` passes the checks before the Content-Length check,
its Content-Length value `+5` is not a string of decimal digits, and the call returns
`TRUE` with content length 5 instead of rejecting with 400. -/
theorem C19_signed_content_length_accepted_counterexample :
    checks_before_content_length sampleExt ⟨conPlusFive, 0⟩
      = .ok (final_state (checks_before_content_length sampleExt ⟨conPlusFive, 0⟩)) ∧
    li_http_header_lookup conPlusFive.mainvr.request.headers "content-length".toList
      = some (hdr "Content-Length" "+5") ∧
    ¬ (∀ c ∈ (hdr "Content-Length" "+5").value, is_digit c) ∧
    (li_request_validate_header sampleExt 0 conPlusFive).ret = true ∧
    (li_request_validate_header sampleExt 0 conPlusFive).con.mainvr.request.content_length
      = 5 := by
  refine ⟨rfl, rfl, ?_, ?_, ?_⟩ <;> decide

/-- C19, amended: the Content-Length value is parsed by `g_ascii_strtoll` in base 10, which
reads leading white space, an optional sign and decimal digits.  For a request that
passes the checks before the Content-Length check and whose Content-Length value, read
as the C string it is, is not empty: a value that is not of the form white space,
optional sign, one or more digits is rejected with status 400, the content length
staying as at entry; and when the Content-Length check passes, the value is of that form
and the content length stored is the parsed number, which is not negative. -/
theorem C19_content_length_grammar (ext : Externals) (errno : Int) (con : liConnection)
    (s4 : St) (hh : liHttpHeader)
    (hpre : checks_before_content_length ext ⟨con, errno⟩ = .ok s4)
    (hcl : li_http_header_lookup con.mainvr.request.headers "content-length".toList = some hh)
    (hne : c_str hh.value ≠ []) :
    (strtoll_number (c_str hh.value) = false →
      (li_request_validate_header ext errno con).ret = false ∧
      (li_request_validate_header ext errno con).con.mainvr.response_http_status = 400 ∧
      (li_request_validate_header ext errno con).con.mainvr.request.content_length
        = con.mainvr.request.content_length) ∧
    (∀ s5 : St, check_content_length s4 = .ok s5 →
      strtoll_number (c_str hh.value) = true ∧
      s5.con.mainvr.request.content_length = (g_ascii_strtoll (c_str hh.value) errno).r ∧
      0 ≤ s5.con.mainvr.request.content_length) := by
  obtain ⟨hval, ⟨hhd, -, -, -, -, -⟩, herr, hlen, -⟩ :=
    validate_from_content_length ext errno con s4 hpre
  simp only at hhd herr hlen
  have hiff := deref_err_eq_NUL_iff hh.value errno
  constructor
  · intro hform
    have hbad : deref (g_ascii_strtoll hh.value errno).err ≠ NUL := by
      intro h
      rcases hiff.mp h with h1 | h1
      · exact hne h1
      · rw [hform] at h1
        exact absurd h1 (by decide)
    rw [hval]
    simp only [chain_from_content_length, check_content_length, hhd, hcl, herr]
    rw [if_pos hbad]
    exact ⟨rfl, rfl, hlen⟩
  · intro s5 h5
    simp only [check_content_length, hhd, hcl, herr] at h5
    split at h5
    · exact absurd h5 (by simp)
    · rename_i hend
      split at h5
      · exact absurd h5 (by simp)
      · rename_i hnn
        split at h5
        · exact absurd h5 (by simp)
        · have hend2 : deref (g_ascii_strtoll hh.value errno).err = NUL := by
            by_contra h
            exact hend h
          have hs5 : s5.con.mainvr.request.content_length
              = (g_ascii_strtoll hh.value errno).r := by
            rw [← Except.ok.inj h5]
            rfl
          refine ⟨(hiff.mp hend2).resolve_left hne, ?_, ?_⟩
          · rw [hs5, g_ascii_strtoll_r_c_str]
          · rw [hs5]
            omega

theorem C19_content_length_grammar_witness :
    (li_request_validate_header sampleExt 0 (mkCon .PUT .V1_1 "/".toList
        [hostA, hdr "Content-Length" "1 2"])).ret = false ∧
    (li_request_validate_header sampleExt 0 (mkCon .PUT .V1_1 "/".toList
        [hostA, hdr "Content-Length" "1 2"])).con.mainvr.response_http_status = 400 ∧
    (li_request_validate_header sampleExt 0 (mkCon .PUT .V1_1 "/".toList
        [hostA, hdr "Content-Length" "1 2"])).con.mainvr.request.content_length = -1 :=
  (C19_content_length_grammar sampleExt 0
    (mkCon .PUT .V1_1 "/".toList [hostA, hdr "Content-Length" "1 2"])
    (final_state (checks_before_content_length sampleExt
      ⟨mkCon .PUT .V1_1 "/".toList [hostA, hdr "Content-Length" "1 2"], 0⟩))
    (hdr "Content-Length" "1 2") rfl rfl (by decide)).1 (by decide)

/-- An empty Content-Length value: nothing is converted, `err` is at the end of the (empty)
text, and the call stores content length 0. -/
theorem empty_content_length_stored_as_zero :
    (li_request_validate_header sampleExt 0 (mkCon .PUT .V1_1 "/".toList
        [hostA, hdr "Content-Length" ""])).ret = true ∧
    (li_request_validate_header sampleExt 0 (mkCon .PUT .V1_1 "/".toList
        [hostA, hdr "Content-Length" ""])).con.mainvr.request.content_length = 0 := by
  constructor <;> decide

/-- A Content-Length value with a NUL behind its digits: the conversion stops at the NUL,
`*err` reads NUL, and the call stores the digits before it. -/
theorem content_length_read_up_to_NUL :
    (li_request_validate_header sampleExt 0 (mkCon .PUT .V1_1 "/".toList
        [hostA, ⟨"Content-Length".toList, ['5', NUL, 'a', 'b', 'c']⟩])).ret = true ∧
    (li_request_validate_header sampleExt 0 (mkCon .PUT .V1_1 "/".toList
        [hostA, ⟨"Content-Length".toList, ['5', NUL, 'a', 'b', 'c']⟩])
        ).con.mainvr.request.content_length = 5 := by
  constructor <;> decide

end Lighttpd
